import Mathlib

/-!
# Verification of the `datasette-socrata` import pipeline

Shallow embedding of `datasette_socrata/__init__.py`: the durable state
(`socrata_imports` row and the target table), the batch writer
(`write_batch`, with its disk-space guard and its `with db.conn:`
transaction), the streaming loop of `run_the_import`, the error-catching
wrapper `run_the_import_catch_errors`, the start-of-import record insert
and table drop from `import_socrata`, the CSV record reader
`AsyncDictReader`, and the row-count probe `get_row_count`.

External effects (the HTTP stream, the disk-space probe, sqlite faults,
clock readings) are supplied by an explicit environment `Env`; each point
in the code where a Python exception can arise is modelled by an
`Except (String × DbState)` result whose error carries the message and
the durable state at the moment the exception escaped.
-/

set_option linter.unusedVariables false

namespace DatasetteSocrata

/-- One parsed CSV record: ordered field-name/value pairs, as produced by
`csv.DictReader`. -/
abbrev Row := List (String × String)

/-- Column storage types detected by `sqlite_utils.utils.TypeTracker`. -/
inductive ColType
  | integer
  | float
  | text
  deriving Repr, DecidableEq

/-- One row of the `socrata_imports` table (see the `create table` statement
and the insert in `import_socrata`). -/
structure ImportRecord where
  id : String
  name : String
  url : String
  metadata : String
  row_count : Option Int
  row_progress : Nat
  import_started : String
  import_complete : Option String
  error : Option String
  deriving Repr, DecidableEq

/-- The target table `socrata_<id>`: its rows, and the column types once
`transform` has rewritten them (`none` while they are still the provisional
text-ish types of `insert_all`). -/
structure TargetTable where
  rows : List Row
  types : Option (List (String × ColType))
  deriving Repr, DecidableEq

/-- The durable state of one import: the `socrata_imports` table and the
target table for the dataset being imported (`none` = table absent). -/
structure DbState where
  imports : List ImportRecord
  target : Option TargetTable
  deriving Repr, DecidableEq

/-- A pull from `response.aiter_lines()`: either the next text line, or a
transport/stream exception raised at that pull. -/
inductive LineEvent
  | line (s : String)
  | fail (msg : String)
  deriving Repr, DecidableEq

/-- A fault injected into the sqlite statements of one `write_batch`
transaction: no fault, an exception raised by the `insert_all` statement, or
an exception raised by the progress `update` after `insert_all` took effect. -/
inductive WriteFault
  | ok
  | beforeInsert (msg : String)
  | afterInsert (msg : String)
  deriving Repr, DecidableEq

/-- The environment of one background import run: the streamed CSV body, the
disk-space guard answer and the injected sqlite fault at the i-th
`write_batch` call, a fault for the final `transform` call, and the clock
value used for `import_complete`. -/
structure Env where
  stream : List LineEvent
  diskLow : Nat → Bool
  writeFault : Nat → WriteFault
  transformFault : Option String
  now : String

/-- Helper: split a list of characters at commas. Models the `csv` module's
field splitting for the simple unquoted fields this development needs. -/
def splitCommaAux : List Char → List Char → List String
  | [], acc => [String.mk acc.reverse]
  | c :: cs, acc =>
    if c = ',' then String.mk acc.reverse :: splitCommaAux cs []
    else splitCommaAux cs (c :: acc)

/-- Split a CSV line into its fields (unquoted-field fragment of the `csv`
module's grammar). -/
def splitComma (s : String) : List String :=
  splitCommaAux s.toList []

/-- Parse one data line against the header line, producing the
field-name/value record that `csv.DictReader` yields. -/
def parseRow (header s : String) : Row :=
  (splitComma header).zip (splitComma s)

/-- Decimal digits of a string, models `int(...)` digit parsing. -/
def digitsVal : List Char → Option Nat
  | [] => none
  | cs =>
    if cs.all Char.isDigit then
      some (cs.foldl (fun n c => 10 * n + (c.toNat - 48)) 0)
    else none

/-- Python `int(string)`: optional sign followed by digits, else `ValueError`
(modelled as `none`). -/
def pyStrToInt (s : String) : Option Int :=
  match s.toList with
  | '-' :: rest => (digitsVal rest).map (fun n => -(n : Int))
  | cs => (digitsVal cs).map (fun n => (n : Int))

/-- `true` iff every non-empty value in the list parses as an integer.
Fragment of `TypeTracker`'s integer detection. -/
def allIntLike (vals : List String) : Bool :=
  vals.all (fun v => v = "" || (pyStrToInt v).isSome)

/-- Models float detection of `TypeTracker`: digits with at most one dot. -/
def isFloatLike (s : String) : Bool :=
  match s.toList with
  | [] => false
  | cs =>
    let cs := if cs.head? = some '-' then cs.tail else cs
    cs.any Char.isDigit && cs.all (fun c => c.isDigit || c = '.')
      && (cs.filter (fun c => c = '.')).length ≤ 1

/-- `true` iff every non-empty value looks like a float. -/
def allFloatLike (vals : List String) : Bool :=
  vals.all (fun v => v = "" || isFloatLike v)

/-- Column names in order of first appearance across the observed rows. -/
def columnsOf (rows : List Row) : List String :=
  rows.foldl
    (fun acc r => acc ++ ((r.map Prod.fst).filter (fun k => !(acc.contains k)))) []

/-- All values observed for a column name. -/
def valuesOf (k : String) (rows : List Row) : List String :=
  rows.filterMap (fun r => (r.find? (fun p => p.1 == k)).map Prod.snd)

/-- The type `TypeTracker` reports for one column's observed values: integer
if every non-empty value is integer-like, float if every non-empty value is
float-like, text otherwise (and text when nothing non-empty was seen). -/
def detectColType (vals : List String) : ColType :=
  if (vals.filter (fun v => v != "")).isEmpty then ColType.text
  else if allIntLike vals then ColType.integer
  else if allFloatLike vals then ColType.float
  else ColType.text

/-- `tracker.types`: the finalized per-column types after observing `rows`.
Models `sqlite_utils.utils.TypeTracker` over the rows passed through
`tracker.wrap`. -/
def detectTypes (rows : List Row) : List (String × ColType) :=
  (columnsOf rows).map (fun k => (k, detectColType (valuesOf k rows)))

/-- `db.imports` lookup by dataset id (the `socrata_imports` primary key). -/
def lookupImport (id : String) (db : DbState) : Option ImportRecord :=
  db.imports.find? (fun r => r.id == id)

/-- Apply `g` to every `socrata_imports` row whose id matches (the shape of
every `update ... where id = ?` in the source). -/
def updWhere (id : String) (g : ImportRecord → ImportRecord) (db : DbState) : DbState :=
  { db with imports := db.imports.map (fun r => if r.id = id then g r else r) }

/-- Add `n` to a record's `row_progress`. -/
def addProgress (n : Nat) (r : ImportRecord) : ImportRecord :=
  { r with row_progress := r.row_progress + n }

/-- The `update socrata_imports set row_progress = row_progress + ? where
id = ?` statement of `write_batch`. -/
def updateProgress (id : String) (n : Nat) (db : DbState) : DbState :=
  updWhere id (addProgress n) db

/-- The `socrata_imports.update(id, {"error": str(error)})` call of
`run_the_import_catch_errors`. -/
def updateError (id msg : String) (db : DbState) : DbState :=
  updWhere id (fun r => { r with error := some msg }) db

/-- The `socrata_imports.update(id, {"import_complete": ...})` call at the
end of `run_the_import`. -/
def updateComplete (id ts : String) (db : DbState) : DbState :=
  updWhere id (fun r => { r with import_complete := some ts }) db

/-- `db[table_name].insert_all(rows)`: appends to the target table, creating
it (with provisional types) when absent. -/
def insertAllRows (rows : List Row) (db : DbState) : DbState :=
  match db.target with
  | none => { db with target := some ⟨rows, none⟩ }
  | some t => { db with target := some ⟨t.rows ++ rows, t.types⟩ }

/-- The rows currently in the target table ([] when the table is absent). -/
def targetRows (db : DbState) : List Row :=
  match db.target with
  | none => []
  | some t => t.rows

/-- The target table's rewritten column types, when the table exists and has
been transformed. -/
def typesOf (db : DbState) : Option (List (String × ColType)) :=
  match db.target with
  | none => none
  | some t => t.types

/-- The body of the `with db.conn:` block inside `write_batch`: run
`insert_all`, then the progress `update`, with `fault` saying which sqlite
statement (if any) raises. An error carries the uncommitted state at the
moment the exception is raised. -/
def writeTxBody (fault : WriteFault) (id : String) (rows : List Row)
    (db : DbState) : Except (String × DbState) DbState :=
  match fault with
  | .beforeInsert msg => .error (msg, db)
  | .afterInsert msg => .error (msg, insertAllRows rows db)
  | .ok => .ok (updateProgress id rows.length (insertAllRows rows db))

/-- `with db.conn:` — a sqlite transaction: on an exception inside the block
every uncommitted change is rolled back (the caller observes the original
state) and the exception propagates. -/
def runTransaction (body : DbState → Except (String × DbState) DbState)
    (db : DbState) : Except (String × DbState) DbState :=
  match body db with
  | .ok db2 => .ok db2
  | .error (e, _) => .error (e, db)

/-- `write_batch(rows)` from `run_the_import`: consult the disk-space guard,
raise `DiskSpaceLow` when it reports low space, otherwise insert the batch
and advance `row_progress` inside one transaction. `callIdx` indexes this
call for the environment's oracles. -/
def write_batch (env : Env) (callIdx : Nat) (id : String) (rows : List Row)
    (db : DbState) : Except (String × DbState) DbState :=
  if env.diskLow callIdx then .error ("Disk space is running low", db)
  else runTransaction (writeTxBody (env.writeFault callIdx) id rows) db

/-- The in-flight state of the streaming loop: the durable state, the rows
the `TypeTracker` has observed (through `tracker.wrap`), the pending batch,
and how many `write_batch` calls have happened. -/
structure RunState where
  db : DbState
  observed : List Row
  batch : List Row
  wcount : Nat
  deriving Repr

/-- The `async for row in reader` loop of `run_the_import`, fused with
`AsyncDictReader.__anext__` pulling from the line stream: a pulled exception
propagates, a pulled empty line ends the iteration, and every parsed row is
appended to the batch, which is written whenever it reaches `bs` rows
(`bs = 100` in the source). -/
def streamLoop (env : Env) (bs : Nat) (id header : String) :
    List LineEvent → RunState → Except (String × DbState) RunState
  | [], st => .ok st
  | .fail msg :: _, st => .error (msg, st.db)
  | .line l :: rest, st =>
    if l = "" then .ok st
    else
      let batch2 := st.batch ++ [parseRow header l]
      if bs ≤ batch2.length then
        match write_batch env st.wcount id batch2 st.db with
        | .error e => .error e
        | .ok db2 =>
          streamLoop env bs id header rest
            ⟨db2, st.observed ++ batch2, [], st.wcount + 1⟩
      else
        streamLoop env bs id header rest ⟨st.db, st.observed, batch2, st.wcount⟩

/-- `db[table_name].transform(types=tracker.types)`: rewrite the target
table's column storage types. Raises when the environment injects a sqlite
fault, and raises `no such table` when the target table was never created
(sqlite_utils cannot transform a missing table). -/
def transformTarget (env : Env) (tys : List (String × ColType))
    (db : DbState) : Except (String × DbState) DbState :=
  match env.transformFault with
  | some e => .error (e, db)
  | none =>
    match db.target with
    | none => .error ("no such table", db)
    | some t => .ok { db with target := some ⟨t.rows, some tys⟩ }

/-- The tail of `run_the_import` after the `async for` loop: write the final
partial batch if non-empty, transform the column types to the tracker's
finalized types, then stamp `import_complete`. -/
def finishImport (env : Env) (id : String) (st : RunState) :
    Except (String × DbState) DbState :=
  match
    (if st.batch.isEmpty then
      (.ok ⟨st.db, st.observed, st.batch, st.wcount⟩ :
        Except (String × DbState) RunState)
    else
      match write_batch env st.wcount id st.batch st.db with
      | .error e => .error e
      | .ok db2 => .ok ⟨db2, st.observed ++ st.batch, [], st.wcount + 1⟩) with
  | .error e => .error e
  | .ok st2 =>
    match transformTarget env (detectTypes st2.observed) st2.db with
    | .error e => .error e
    | .ok db3 => .ok (updateComplete id env.now db3)

/-- `run_the_import`, generalized over the batch threshold `bs` (the source
fixes `bs = 100`): pull the header, drive the loop, then finish. An empty
stream means the header pull ends the iteration with zero records. -/
def runBS (env : Env) (bs : Nat) (id : String) (db : DbState) :
    Except (String × DbState) DbState :=
  match env.stream with
  | [] => finishImport env id ⟨db, [], [], 0⟩
  | .fail msg :: _ => .error (msg, db)
  | .line header :: rest =>
    match streamLoop env bs id header rest ⟨db, [], [], 0⟩ with
    | .error e => .error e
    | .ok st => finishImport env id st

/-- `run_the_import` as written in the source: batches of 100 records. -/
def run_the_import (env : Env) (id : String) (db : DbState) :
    Except (String × DbState) DbState :=
  runBS env 100 id db

/-- The `try/except` of `run_the_import_catch_errors`: a successful run
returns its state; an escaped exception has its message written to the
Import Record's `error` field. -/
def catchIntoError (id : String)
    (r : Except (String × DbState) DbState) : DbState :=
  match r with
  | .ok db => db
  | .error (msg, db) => updateError id msg db

/-- `run_the_import_catch_errors`: the whole background task. -/
def run_the_import_catch_errors (env : Env) (id : String) (db : DbState) :
    DbState :=
  catchIntoError id (run_the_import env id db)

/-- The metadata captured before the import starts (`metadata["id"]`,
`metadata["name"]`, `json.dumps(metadata)`). -/
structure SocrataMeta where
  id : String
  name : String
  json : String
  deriving Repr, DecidableEq

/-- The fresh Import Record `import_socrata` inserts at import start. -/
def freshRecord (meta : SocrataMeta) (url : String) (row_count : Option Int)
    (startedAt : String) : ImportRecord :=
  { id := meta.id, name := meta.name, url := url, metadata := meta.json,
    row_count := row_count, row_progress := 0, import_started := startedAt,
    import_complete := none, error := none }

/-- The start-of-import writes of `import_socrata`: insert the fresh Import
Record with `replace=True` (an `INSERT OR REPLACE` on the primary key, so the
whole prior row — `import_complete` included — is replaced), then
`db[table_name].drop(ignore=True)`. -/
def import_socrata_start (meta : SocrataMeta) (url : String)
    (row_count : Option Int) (startedAt : String) (db : DbState) : DbState :=
  { imports :=
      freshRecord meta url row_count startedAt ::
        db.imports.filter (fun r => r.id != meta.id),
    target := none }

/-- The whole import as triggered by a POST: start-of-import writes followed
by the background task. -/
def importPipeline (env : Env) (meta : SocrataMeta) (url : String)
    (row_count : Option Int) (startedAt : String) (db : DbState) : DbState :=
  run_the_import_catch_errors env meta.id
    (import_socrata_start meta url row_count startedAt db)

/-- `AsyncDictReader` pulling data lines after the header: end of input ends
the sequence, a pulled empty line ends the sequence the same way
(`if not line: raise StopAsyncIteration`), a pulled exception propagates,
and every other line parses to one record. -/
def readerRun (header : String) : List LineEvent → Except String (List Row)
  | [] => .ok []
  | .fail msg :: _ => .error msg
  | .line l :: rest =>
    if l = "" then .ok []
    else (readerRun header rest).map (fun rs => parseRow header l :: rs)

/-- All records `AsyncDictReader` yields from a line stream: the first pull
consumes the header, then data lines follow. -/
def readAllRecords : List LineEvent → Except String (List Row)
  | [] => .ok []
  | .fail msg :: _ => .error msg
  | .line header :: rest => readerRun header rest

/-- Minimal JSON values, for the body of the row-count response. -/
inductive Json
  | arr (elems : List Json)
  | obj (fields : List (String × Json))
  | str (s : String)
  | num (n : Int)
  | bool (b : Bool)
  | null
  deriving Repr

/-- The outcome of the `client.get` in `get_row_count`: a transport-level
`httpx.HTTPError`, or a response with a status code and a body (`none` when
the body is not valid JSON, so `.json()` raises). -/
inductive HttpxResult
  | transportError (msg : String)
  | response (status : Nat) (body : Option Json)
  deriving Repr

/-- `p` is a leading fragment of `s` (character lists). -/
def leadsWith : List Char → List Char → Bool
  | [], _ => true
  | _ :: _, [] => false
  | p :: ps, c :: cs => p == c && leadsWith ps cs

/-- Python `key.startswith("count")`. -/
def startsWithCount (k : String) : Bool :=
  leadsWith "count".toList k.toList

/-- Python `int(value)` over a JSON value: numbers pass through, strings must
parse as an integer (`ValueError` otherwise), booleans coerce to 0/1, and
every other value raises `TypeError`. -/
def pyIntOfJson : Json → Except String Int
  | .num n => .ok n
  | .str s =>
    match pyStrToInt s with
    | some n => .ok n
    | none => .error "ValueError: invalid literal for int()"
  | .bool b => .ok (if b then 1 else 0)
  | _ => .error "TypeError: int() argument"

/-- `get_row_count` translated statement by statement: no `try` block guards
the request, so a transport error propagates; a 200 body that is not valid
JSON raises in `.json()`; a one-element list whose sole element is not a
dict raises in `.keys()`; an empty dict raises `IndexError` in `[0]`; a
first key starting with `count` sends the first value through `int(...)`;
every remaining shape falls through to `return None`. -/
def get_row_count (r : HttpxResult) : Except String (Option Int) :=
  match r with
  | .transportError msg => .error msg
  | .response status body =>
    if status = 200 then
      match body with
      | none => .error "JSONDecodeError"
      | some j =>
        match j with
        | .arr [e] =>
          match e with
          | .obj [] => .error "IndexError: list index out of range"
          | .obj ((k, v) :: _) =>
            if startsWithCount k then (pyIntOfJson v).map some
            else .ok none
          | _ => .error "AttributeError: keys"
        | _ => .ok none
    else .ok none

/-- `row_progress` of the Import Record for `id`. -/
def progressOf (id : String) (db : DbState) : Option Nat :=
  (lookupImport id db).map (fun r => r.row_progress)

/-- `error` of the Import Record for `id` (`none` when absent or null). -/
def errorOf (id : String) (db : DbState) : Option String :=
  (lookupImport id db).bind (fun r => r.error)

/-- `import_complete` of the Import Record for `id`. -/
def completeOf (id : String) (db : DbState) : Option String :=
  (lookupImport id db).bind (fun r => r.import_complete)

/-- The Import Record fields the background task never writes. -/
def frozenFields (r : ImportRecord) :
    String × String × String × String × Option Int × String :=
  (r.id, r.name, r.url, r.metadata, r.row_count, r.import_started)

/-- `b` differs from `a` at most in `row_progress` values: the frozen fields
of every record, the `error` and `import_complete` of every dataset id, and
which ids have a record, all agree. -/
def MetaSafe (a b : DbState) : Prop :=
  b.imports.map frozenFields = a.imports.map frozenFields ∧
  (∀ k, errorOf k b = errorOf k a) ∧
  (∀ k, completeOf k b = completeOf k a) ∧
  (∀ k, (lookupImport k b).isSome = (lookupImport k a).isSome)

/-- Both possible outcomes of the streaming loop leave the Import Records
`MetaSafe`-related to the starting state. -/
def SafeOutcome (a : DbState) : Except (String × DbState) RunState → Prop
  | .ok st => MetaSafe a st.db
  | .error (_, d) => MetaSafe a d

/-- The target-table view of a run outcome, used to state that the target
table's fate is independent of the pre-existing durable state. -/
def exShadow :
    Except (String × DbState) DbState →
      Except (String × Option TargetTable) (Option TargetTable)
  | .ok db => .ok db.target
  | .error (e, db) => .error (e, db.target)

/-- The loop-visible view of a loop outcome, for the same independence
argument. -/
def loopShadow :
    Except (String × DbState) RunState →
      Except (String × Option TargetTable)
        (Option TargetTable × List Row × List Row × Nat)
  | .ok st => .ok (st.db.target, st.observed, st.batch, st.wcount)
  | .error (e, db) => .error (e, db.target)

/-- Pure mirror of one loop iteration on a successfully pulled row, used to
state what the loop does on a fault-free segment of the stream. -/
def goodStep (bs : Nat) (id : String) (row : Row) (st : RunState) : RunState :=
  let batch2 := st.batch ++ [row]
  if bs ≤ batch2.length then
    ⟨updateProgress id batch2.length (insertAllRows batch2 st.db),
      st.observed ++ batch2, [], st.wcount + 1⟩
  else
    ⟨st.db, st.observed, batch2, st.wcount⟩

/-- Pure mirror of the loop over a list of successfully pulled rows. -/
def goodRun (bs : Nat) (id : String) : List Row → RunState → RunState
  | [], st => st
  | r :: rest, st => goodRun bs id rest (goodStep bs id r st)

/-! ## Basic lemmas about the durable-state operations -/

theorem find?_map_of_id_preserving (f : ImportRecord → ImportRecord)
    (hid : ∀ r, (f r).id = r.id) (k : String) :
    ∀ l : List ImportRecord,
      (l.map f).find? (fun r => r.id == k) =
        (l.find? (fun r => r.id == k)).map f := by
  intro l
  induction l with
  | nil => rfl
  | cons a t ih =>
    by_cases h : a.id = k
    · have hf : (f a).id = k := by rw [hid a]; exact h
      simp [List.find?_cons, h, hf]
    · have hf : ¬ (f a).id = k := by rw [hid a]; exact h
      simp [List.find?_cons, h, hf, ih]

theorem lookupImport_updWhere (id k : String) (g : ImportRecord → ImportRecord)
    (hg : ∀ r, (g r).id = r.id) (db : DbState) :
    lookupImport k (updWhere id g db) =
      (lookupImport k db).map (fun r => if r.id = id then g r else r) := by
  unfold lookupImport updWhere
  exact find?_map_of_id_preserving _ (fun r => by by_cases h : r.id = id <;> simp [h, hg]) k db.imports

theorem lookupImport_found (k : String) (db : DbState) (r : ImportRecord)
    (h : lookupImport k db = some r) : r.id = k := by
  have := List.find?_some h
  simpa using this

theorem updWhere_target (id : String) (g : ImportRecord → ImportRecord)
    (db : DbState) : (updWhere id g db).target = db.target := rfl

theorem insertAllRows_imports (rows : List Row) (db : DbState) :
    (insertAllRows rows db).imports = db.imports := by
  unfold insertAllRows
  cases db.target <;> rfl

theorem insertAllRows_targetRows (rows : List Row) (db : DbState) :
    targetRows (insertAllRows rows db) = targetRows db ++ rows := by
  unfold insertAllRows targetRows
  cases db.target <;> simp

theorem typesOf_insertAllRows (rows : List Row) (db : DbState) :
    typesOf (insertAllRows rows db) = typesOf db := by
  unfold insertAllRows typesOf
  cases db.target <;> simp

theorem updateProgress_target (id : String) (n : Nat) (db : DbState) :
    (updateProgress id n db).target = db.target := rfl

theorem lookupImport_updateProgress (id : String) (n : Nat) (db : DbState) :
    lookupImport id (updateProgress id n db) =
      (lookupImport id db).map (addProgress n) := by
  unfold updateProgress
  rw [lookupImport_updWhere id id (addProgress n) (fun r => rfl) db]
  cases h : lookupImport id db with
  | none => rfl
  | some r =>
    have : r.id = id := lookupImport_found id db r h
    simp [this]

theorem progressOf_updateProgress (id : String) (n : Nat) (db : DbState) :
    progressOf id (updateProgress id n db) =
      (progressOf id db).map (fun p => p + n) := by
  unfold progressOf
  rw [lookupImport_updateProgress]
  cases lookupImport id db <;> rfl

theorem errorOf_updWhere (id k : String) (g : ImportRecord → ImportRecord)
    (hg : ∀ r, (g r).id = r.id) (hge : ∀ r, (g r).error = r.error)
    (db : DbState) : errorOf k (updWhere id g db) = errorOf k db := by
  unfold errorOf
  rw [lookupImport_updWhere id k g hg db]
  cases lookupImport k db with
  | none => rfl
  | some r => by_cases h : r.id = id <;> simp [h, hge]

theorem completeOf_updWhere (id k : String) (g : ImportRecord → ImportRecord)
    (hg : ∀ r, (g r).id = r.id)
    (hgc : ∀ r, (g r).import_complete = r.import_complete)
    (db : DbState) : completeOf k (updWhere id g db) = completeOf k db := by
  unfold completeOf
  rw [lookupImport_updWhere id k g hg db]
  cases lookupImport k db with
  | none => rfl
  | some r => by_cases h : r.id = id <;> simp [h, hgc]

theorem frozen_updWhere (id : String) (g : ImportRecord → ImportRecord)
    (hgf : ∀ r, frozenFields (g r) = frozenFields r) (db : DbState) :
    (updWhere id g db).imports.map frozenFields = db.imports.map frozenFields := by
  unfold updWhere
  rw [List.map_map]
  apply List.map_congr_left
  intro r _
  by_cases h : r.id = id <;> simp [h, hgf]

theorem isSome_updWhere (id k : String) (g : ImportRecord → ImportRecord)
    (hg : ∀ r, (g r).id = r.id) (db : DbState) :
    (lookupImport k (updWhere id g db)).isSome = (lookupImport k db).isSome := by
  rw [lookupImport_updWhere id k g hg db]
  cases lookupImport k db <;> rfl

theorem progressOf_updWhere (id k : String) (g : ImportRecord → ImportRecord)
    (hg : ∀ r, (g r).id = r.id)
    (hgp : ∀ r, (g r).row_progress = r.row_progress) (db : DbState) :
    progressOf k (updWhere id g db) = progressOf k db := by
  unfold progressOf
  rw [lookupImport_updWhere id k g hg db]
  cases lookupImport k db with
  | none => rfl
  | some r => by_cases h : r.id = id <;> simp [h, hgp]

theorem errorOf_updateError_self (id m : String) (db : DbState)
    (h : (lookupImport id db).isSome = true) :
    errorOf id (updateError id m db) = some m := by
  unfold errorOf updateError
  rw [lookupImport_updWhere id id (fun r => { r with error := some m })
    (fun r => rfl) db]
  cases hr : lookupImport id db with
  | none => rw [hr] at h; simp at h
  | some r =>
    have : r.id = id := lookupImport_found id db r hr
    simp [this]

theorem completeOf_updateComplete_self (id ts : String) (db : DbState)
    (h : (lookupImport id db).isSome = true) :
    completeOf id (updateComplete id ts db) = some ts := by
  unfold completeOf updateComplete
  rw [lookupImport_updWhere id id (fun r => { r with import_complete := some ts })
    (fun r => rfl) db]
  cases hr : lookupImport id db with
  | none => rw [hr] at h; simp at h
  | some r =>
    have : r.id = id := lookupImport_found id db r hr
    simp [this]

/-! ## `write_batch`: outcomes and atomicity -/

theorem write_batch_ok (env : Env) (i : Nat) (id : String) (rows : List Row)
    (db : DbState) (h1 : env.diskLow i = false) (h2 : env.writeFault i = .ok) :
    write_batch env i id rows db =
      .ok (updateProgress id rows.length (insertAllRows rows db)) := by
  simp [write_batch, h1, h2, runTransaction, writeTxBody]

theorem write_batch_guard_low (env : Env) (i : Nat) (id : String)
    (rows : List Row) (db : DbState) (h : env.diskLow i = true) :
    write_batch env i id rows db = .error ("Disk space is running low", db) := by
  simp [write_batch, h]

theorem write_batch_cases (env : Env) (i : Nat) (id : String) (rows : List Row)
    (db : DbState) :
    write_batch env i id rows db =
        .ok (updateProgress id rows.length (insertAllRows rows db)) ∨
      ∃ e, write_batch env i id rows db = .error (e, db) := by
  unfold write_batch runTransaction writeTxBody
  cases h : env.diskLow i with
  | true => exact Or.inr ⟨"Disk space is running low", by simp⟩
  | false => cases hf : env.writeFault i <;> simp

theorem write_batch_error_state (env : Env) (i : Nat) (id : String)
    (rows : List Row) (db : DbState) (e : String) (d : DbState)
    (h : write_batch env i id rows db = .error (e, d)) : d = db := by
  rcases write_batch_cases env i id rows db with hc | ⟨e2, hc⟩ <;> rw [hc] at h
  · exact absurd h (by simp)
  · injection h with h2
    injection h2 with _ h3
    exact h3.symm

/-! ## Composition of the durable-state operations -/

theorem updateProgress_comp (id : String) (m n : Nat) (db : DbState) :
    updateProgress id m (updateProgress id n db) =
      updateProgress id (n + m) db := by
  unfold updateProgress updWhere
  congr 1
  rw [List.map_map]
  apply List.map_congr_left
  intro r _
  by_cases h : r.id = id <;> simp [h, addProgress, Nat.add_assoc]

theorem insertAllRows_comp (a b : List Row) (db : DbState) :
    insertAllRows b (insertAllRows a db) = insertAllRows (a ++ b) db := by
  unfold insertAllRows
  cases db.target <;> simp

theorem updateProgress_insertAllRows (id : String) (n : Nat) (rows : List Row)
    (db : DbState) :
    insertAllRows rows (updateProgress id n db) =
      updateProgress id n (insertAllRows rows db) := by
  unfold updateProgress updWhere insertAllRows
  cases db.target <;> rfl

theorem insertAllRows_target (rows : List Row) (db : DbState) :
    (insertAllRows rows db).target = some ⟨targetRows db ++ rows, typesOf db⟩ := by
  unfold insertAllRows targetRows typesOf
  cases db.target <;> simp

/-! ## `MetaSafe`: what the background task never changes -/

theorem metaSafe_refl (db : DbState) : MetaSafe db db :=
  ⟨rfl, fun _ => rfl, fun _ => rfl, fun _ => rfl⟩

theorem metaSafe_trans {a b c : DbState} (h1 : MetaSafe a b) (h2 : MetaSafe b c) :
    MetaSafe a c :=
  ⟨h2.1.trans h1.1, fun k => (h2.2.1 k).trans (h1.2.1 k),
    fun k => (h2.2.2.1 k).trans (h1.2.2.1 k),
    fun k => (h2.2.2.2 k).trans (h1.2.2.2 k)⟩

theorem metaSafe_of_imports_eq {a b : DbState} (h : b.imports = a.imports) :
    MetaSafe a b := by
  refine ⟨by rw [h], fun k => ?_, fun k => ?_, fun k => ?_⟩ <;>
    simp [errorOf, completeOf, lookupImport, h]

theorem metaSafe_updateProgress (id : String) (n : Nat) (db : DbState) :
    MetaSafe db (updateProgress id n db) :=
  ⟨frozen_updWhere id (addProgress n) (fun r => rfl) db,
    fun k => errorOf_updWhere id k (addProgress n) (fun r => rfl) (fun r => rfl) db,
    fun k => completeOf_updWhere id k (addProgress n) (fun r => rfl) (fun r => rfl) db,
    fun k => isSome_updWhere id k (addProgress n) (fun r => rfl) db⟩

theorem metaSafe_insertAllRows (rows : List Row) (db : DbState) :
    MetaSafe db (insertAllRows rows db) :=
  metaSafe_of_imports_eq (insertAllRows_imports rows db)

theorem safeOutcome_trans {a b : DbState} (hab : MetaSafe a b)
    {r : Except (String × DbState) RunState} (h : SafeOutcome b r) :
    SafeOutcome a r := by
  cases r with
  | ok st => exact metaSafe_trans hab h
  | error p => cases p with | mk e d => exact metaSafe_trans hab h

/-! ## `transformTarget` outcomes -/

theorem transformTarget_cases (env : Env) (tys : List (String × ColType))
    (db : DbState) :
    (∃ t, db.target = some t ∧ env.transformFault = none ∧
        transformTarget env tys db =
          .ok { db with target := some ⟨t.rows, some tys⟩ }) ∨
      ∃ e, transformTarget env tys db = .error (e, db) := by
  unfold transformTarget
  cases henv : env.transformFault with
  | some e => exact Or.inr ⟨e, rfl⟩
  | none =>
    cases ht : db.target with
    | none => exact Or.inr ⟨"no such table", rfl⟩
    | some t => exact Or.inl ⟨t, rfl, rfl, rfl⟩

theorem transformTarget_ok_imports (env : Env) (tys : List (String × ColType))
    (db d3 : DbState) (h : transformTarget env tys db = .ok d3) :
    d3.imports = db.imports := by
  rcases transformTarget_cases env tys db with ⟨t, _, _, hc⟩ | ⟨e, hc⟩ <;>
    rw [hc] at h
  · injection h with h2
    rw [← h2]
  · exact absurd h (by simp)

theorem transformTarget_error_state (env : Env) (tys : List (String × ColType))
    (db : DbState) (e : String) (d : DbState)
    (h : transformTarget env tys db = .error (e, d)) : d = db := by
  rcases transformTarget_cases env tys db with ⟨t, _, _, hc⟩ | ⟨e2, hc⟩ <;>
    rw [hc] at h
  · exact absurd h (by simp)
  · injection h with h2
    injection h2 with _ h3
    exact h3.symm

/-! ## The streaming loop preserves everything but `row_progress` -/

theorem streamLoop_safe (env : Env) (bs : Nat) (id hdr : String) :
    ∀ (evs : List LineEvent) (st : RunState),
      SafeOutcome st.db (streamLoop env bs id hdr evs st) := by
  intro evs
  induction evs with
  | nil => intro st; exact metaSafe_refl _
  | cons ev rest ih =>
    intro st
    cases ev with
    | fail m => exact metaSafe_refl _
    | line l =>
      by_cases hl : l = ""
      · subst hl
        have : streamLoop env bs id hdr (.line "" :: rest) st = .ok st := by
          simp [streamLoop]
        rw [this]
        exact metaSafe_refl _
      · simp only [streamLoop, if_neg hl]
        by_cases hlen : bs ≤ (st.batch ++ [parseRow hdr l]).length
        · simp only [if_pos hlen]
          cases hwb : write_batch env st.wcount id (st.batch ++ [parseRow hdr l]) st.db with
          | error p =>
            cases p with
            | mk e d =>
              have hd : d = st.db := write_batch_error_state _ _ _ _ _ _ _ hwb
              subst hd
              exact metaSafe_refl _
          | ok db2 =>
            have hsafe : MetaSafe st.db db2 := by
              rcases write_batch_cases env st.wcount id
                  (st.batch ++ [parseRow hdr l]) st.db with hc | ⟨e, hc⟩ <;>
                rw [hc] at hwb
              · injection hwb with h2
                rw [← h2]
                exact metaSafe_trans (metaSafe_insertAllRows _ _)
                  (metaSafe_updateProgress _ _ _)
              · exact absurd hwb (by simp)
            exact safeOutcome_trans hsafe
              (ih ⟨db2, st.observed ++ (st.batch ++ [parseRow hdr l]), [], st.wcount + 1⟩)
        · simp only [if_neg hlen]
          exact ih ⟨st.db, st.observed, st.batch ++ [parseRow hdr l], st.wcount⟩

theorem write_batch_ok_shape (env : Env) (i : Nat) (id : String)
    (rows : List Row) (db db2 : DbState)
    (h : write_batch env i id rows db = .ok db2) :
    db2 = updateProgress id rows.length (insertAllRows rows db) := by
  rcases write_batch_cases env i id rows db with hc | ⟨e, hc⟩ <;> rw [hc] at h
  · injection h with h2
    exact h2.symm
  · exact absurd h (by simp)

theorem write_batch_ok_metaSafe (env : Env) (i : Nat) (id : String)
    (rows : List Row) (db db2 : DbState)
    (h : write_batch env i id rows db = .ok db2) : MetaSafe db db2 := by
  rw [write_batch_ok_shape env i id rows db db2 h]
  exact metaSafe_trans (metaSafe_insertAllRows _ _) (metaSafe_updateProgress _ _ _)

/-! ## The tail of the run: shapes of `finishImport` and `runBS` -/

theorem finishImport_ok_shape (env : Env) (id : String) (st : RunState)
    (db' : DbState) (h : finishImport env id st = .ok db') :
    ∃ dbm, MetaSafe st.db dbm ∧ db' = updateComplete id env.now dbm := by
  unfold finishImport at h
  by_cases hb : st.batch.isEmpty
  · rw [if_pos hb] at h
    dsimp only at h
    cases htr : transformTarget env (detectTypes st.observed) st.db with
    | error p => rw [htr] at h; simp at h
    | ok db3 =>
      rw [htr] at h
      injection h with h2
      exact ⟨db3,
        metaSafe_of_imports_eq (transformTarget_ok_imports _ _ _ _ htr), h2.symm⟩
  · rw [if_neg hb] at h
    cases hwb : write_batch env st.wcount id st.batch st.db with
    | error p => rw [hwb] at h; simp at h
    | ok db2 =>
      rw [hwb] at h
      dsimp only at h
      cases htr : transformTarget env
          (detectTypes (st.observed ++ st.batch)) db2 with
      | error p => rw [htr] at h; simp at h
      | ok db3 =>
        rw [htr] at h
        injection h with h2
        refine ⟨db3, metaSafe_trans
          (write_batch_ok_metaSafe _ _ _ _ _ _ hwb)
          (metaSafe_of_imports_eq (transformTarget_ok_imports _ _ _ _ htr)),
          h2.symm⟩

theorem finishImport_error_shape (env : Env) (id : String) (st : RunState)
    (e : String) (d : DbState) (h : finishImport env id st = .error (e, d)) :
    MetaSafe st.db d := by
  unfold finishImport at h
  by_cases hb : st.batch.isEmpty
  · rw [if_pos hb] at h
    dsimp only at h
    cases htr : transformTarget env (detectTypes st.observed) st.db with
    | error p =>
      rw [htr] at h
      cases p with
      | mk e2 d2 =>
        injection h with h2
        injection h2 with he hd
        rw [← hd]
        rw [transformTarget_error_state _ _ _ _ _ htr]
        exact metaSafe_refl _
    | ok db3 => rw [htr] at h; simp at h
  · rw [if_neg hb] at h
    cases hwb : write_batch env st.wcount id st.batch st.db with
    | error p =>
      rw [hwb] at h
      dsimp only at h
      cases p with
      | mk e2 d2 =>
        injection h with h2
        injection h2 with he hd
        rw [← hd]
        rw [write_batch_error_state _ _ _ _ _ _ _ hwb]
        exact metaSafe_refl _
    | ok db2 =>
      rw [hwb] at h
      dsimp only at h
      cases htr : transformTarget env
          (detectTypes (st.observed ++ st.batch)) db2 with
      | error p =>
        rw [htr] at h
        cases p with
        | mk e2 d2 =>
          injection h with h2
          injection h2 with he hd
          rw [← hd]
          rw [transformTarget_error_state _ _ _ _ _ htr]
          exact write_batch_ok_metaSafe _ _ _ _ _ _ hwb
      | ok db3 => rw [htr] at h; simp at h

theorem runBS_ok_shape (env : Env) (bs : Nat) (id : String) (db db' : DbState)
    (h : runBS env bs id db = .ok db') :
    ∃ dbm, MetaSafe db dbm ∧ db' = updateComplete id env.now dbm := by
  unfold runBS at h
  cases hs : env.stream with
  | nil =>
    rw [hs] at h
    exact finishImport_ok_shape env id ⟨db, [], [], 0⟩ db' h
  | cons ev rest =>
    rw [hs] at h
    cases ev with
    | fail m => simp at h
    | line hdr =>
      dsimp only at h
      cases hloop : streamLoop env bs id hdr rest ⟨db, [], [], 0⟩ with
      | error p => rw [hloop] at h; simp at h
      | ok st =>
        rw [hloop] at h
        have hsafe := streamLoop_safe env bs id hdr rest ⟨db, [], [], 0⟩
        rw [hloop] at hsafe
        obtain ⟨dbm, hm, hc⟩ := finishImport_ok_shape env id st db' h
        exact ⟨dbm, metaSafe_trans hsafe hm, hc⟩

theorem runBS_error_shape (env : Env) (bs : Nat) (id : String) (db : DbState)
    (e : String) (d : DbState) (h : runBS env bs id db = .error (e, d)) :
    MetaSafe db d := by
  unfold runBS at h
  cases hs : env.stream with
  | nil =>
    rw [hs] at h
    exact finishImport_error_shape env id ⟨db, [], [], 0⟩ e d h
  | cons ev rest =>
    rw [hs] at h
    cases ev with
    | fail m =>
      dsimp only at h
      injection h with h2
      injection h2 with he hd
      rw [← hd]
      exact metaSafe_refl _
    | line hdr =>
      dsimp only at h
      cases hloop : streamLoop env bs id hdr rest ⟨db, [], [], 0⟩ with
      | error p =>
        rw [hloop] at h
        cases p with
        | mk e2 d2 =>
          have hsafe := streamLoop_safe env bs id hdr rest ⟨db, [], [], 0⟩
          rw [hloop] at hsafe
          injection h with h2
          injection h2 with he hd
          rw [← hd]
          exact hsafe
      | ok st =>
        rw [hloop] at h
        have hsafe := streamLoop_safe env bs id hdr rest ⟨db, [], [], 0⟩
        rw [hloop] at hsafe
        exact metaSafe_trans hsafe (finishImport_error_shape env id st e d h)

/-! ## The start-of-import state -/

theorem lookupImport_start (meta : SocrataMeta) (url : String)
    (rc : Option Int) (ts : String) (db : DbState) :
    lookupImport meta.id (import_socrata_start meta url rc ts db) =
      some (freshRecord meta url rc ts) := by
  simp [lookupImport, import_socrata_start, List.find?_cons, freshRecord]

theorem start_target (meta : SocrataMeta) (url : String) (rc : Option Int)
    (ts : String) (db : DbState) :
    (import_socrata_start meta url rc ts db).target = none := rfl

theorem errorOf_start (meta : SocrataMeta) (url : String) (rc : Option Int)
    (ts : String) (db : DbState) :
    errorOf meta.id (import_socrata_start meta url rc ts db) = none := by
  unfold errorOf
  rw [lookupImport_start]
  rfl

theorem completeOf_start (meta : SocrataMeta) (url : String) (rc : Option Int)
    (ts : String) (db : DbState) :
    completeOf meta.id (import_socrata_start meta url rc ts db) = none := by
  unfold completeOf
  rw [lookupImport_start]
  rfl

theorem progressOf_start (meta : SocrataMeta) (url : String) (rc : Option Int)
    (ts : String) (db : DbState) :
    progressOf meta.id (import_socrata_start meta url rc ts db) = some 0 := by
  unfold progressOf
  rw [lookupImport_start]
  rfl

theorem errorOf_updateComplete (id ts k : String) (db : DbState) :
    errorOf k (updateComplete id ts db) = errorOf k db :=
  errorOf_updWhere id k (fun r => { r with import_complete := some ts })
    (fun r => rfl) (fun r => rfl) db

theorem completeOf_updateError (id m k : String) (db : DbState) :
    completeOf k (updateError id m db) = completeOf k db :=
  completeOf_updWhere id k (fun r => { r with error := some m })
    (fun r => rfl) (fun r => rfl) db

theorem progressOf_updateError (id m k : String) (db : DbState) :
    progressOf k (updateError id m db) = progressOf k db :=
  progressOf_updWhere id k (fun r => { r with error := some m })
    (fun r => rfl) (fun r => rfl) db

theorem progressOf_updateComplete (id ts k : String) (db : DbState) :
    progressOf k (updateComplete id ts db) = progressOf k db :=
  progressOf_updWhere id k (fun r => { r with import_complete := some ts })
    (fun r => rfl) (fun r => rfl) db

theorem frozen_updateError (id m : String) (db : DbState) :
    (updateError id m db).imports.map frozenFields =
      db.imports.map frozenFields :=
  frozen_updWhere id (fun r => { r with error := some m }) (fun r => rfl) db

theorem frozen_updateComplete (id ts : String) (db : DbState) :
    (updateComplete id ts db).imports.map frozenFields =
      db.imports.map frozenFields :=
  frozen_updWhere id (fun r => { r with import_complete := some ts })
    (fun r => rfl) db

theorem updateError_target (id m : String) (db : DbState) :
    (updateError id m db).target = db.target := rfl

/-! ## Claims about terminal outcomes and the frame of the background task -/

/-- Claim C7: for every single import run, the two terminal outcomes are
mutually exclusive — the Import Record observed after the background task
never has both `import_complete` and `error` set: exactly one of the two is
set (`import_complete` on success, `error` on failure). -/
theorem claim_C7 (env : Env) (meta : SocrataMeta) (url : String)
    (rc : Option Int) (ts : String) (db : DbState) :
    (∃ t, completeOf meta.id (importPipeline env meta url rc ts db) = some t ∧
        errorOf meta.id (importPipeline env meta url rc ts db) = none) ∨
    (∃ m, errorOf meta.id (importPipeline env meta url rc ts db) = some m ∧
        completeOf meta.id (importPipeline env meta url rc ts db) = none) := by
  have hlook := lookupImport_start meta url rc ts db
  have hsome :
      (lookupImport meta.id (import_socrata_start meta url rc ts db)).isSome
        = true := by
    rw [hlook]; rfl
  cases hrun : run_the_import env meta.id (import_socrata_start meta url rc ts db) with
  | ok db' =>
    have hp : importPipeline env meta url rc ts db = db' := by
      unfold importPipeline run_the_import_catch_errors
      rw [hrun]
      rfl
    obtain ⟨dbm, hm, hc⟩ :=
      runBS_ok_shape env 100 meta.id (import_socrata_start meta url rc ts db) db' hrun
    left
    refine ⟨env.now, ?_, ?_⟩
    · rw [hp, hc]
      exact completeOf_updateComplete_self meta.id env.now dbm
        (by rw [hm.2.2.2 meta.id, hsome])
    · rw [hp, hc, errorOf_updateComplete, hm.2.1 meta.id,
        errorOf_start meta url rc ts db]
  | error p =>
    cases p with
    | mk m d =>
      have hp : importPipeline env meta url rc ts db = updateError meta.id m d := by
        unfold importPipeline run_the_import_catch_errors
        rw [hrun]
        rfl
      have hm :=
        runBS_error_shape env 100 meta.id (import_socrata_start meta url rc ts db) m d hrun
      right
      refine ⟨m, ?_, ?_⟩
      · rw [hp]
        exact errorOf_updateError_self meta.id m d
          (by rw [hm.2.2.2 meta.id, hsome])
      · rw [hp, completeOf_updateError, hm.2.2.1 meta.id,
          completeOf_start meta url rc ts db]

/-- Claim C10: during one background run the task mutates only
`row_progress`, `error` and `import_complete`: the fields `id`, `name`,
`url`, `metadata`, `row_count` and `import_started` of every Import Record
are exactly what they were when the task started. -/
theorem claim_C10 (env : Env) (id : String) (db : DbState) :
    (run_the_import_catch_errors env id db).imports.map frozenFields =
      db.imports.map frozenFields := by
  unfold run_the_import_catch_errors
  cases hrun : run_the_import env id db with
  | ok db' =>
    obtain ⟨dbm, hm, hc⟩ := runBS_ok_shape env 100 id db db' hrun
    dsimp only [catchIntoError]
    rw [hc, frozen_updateComplete]
    exact hm.1
  | error p =>
    cases p with
    | mk m d =>
      have hm := runBS_error_shape env 100 id db m d hrun
      dsimp only [catchIntoError]
      rw [frozen_updateError]
      exact hm.1

/-! ## The loop on a fault-free segment: `goodRun` bookkeeping -/

theorem goodRun_cons (bs : Nat) (id : String) (r : Row) (rest : List Row)
    (st : RunState) :
    goodRun bs id (r :: rest) st = goodRun bs id rest (goodStep bs id r st) := rfl

theorem goodStep_full (bs : Nat) (id : String) (r : Row) (st : RunState)
    (hlen : bs ≤ (st.batch ++ [r]).length) :
    goodStep bs id r st =
      ⟨updateProgress id (st.batch ++ [r]).length
          (insertAllRows (st.batch ++ [r]) st.db),
        st.observed ++ (st.batch ++ [r]), [], st.wcount + 1⟩ := by
  unfold goodStep
  rw [if_pos hlen]

theorem goodStep_accum (bs : Nat) (id : String) (r : Row) (st : RunState)
    (hlen : ¬ bs ≤ (st.batch ++ [r]).length) :
    goodStep bs id r st = ⟨st.db, st.observed, st.batch ++ [r], st.wcount⟩ := by
  unfold goodStep
  rw [if_neg hlen]

theorem goodRun_spec (bs : Nat) (id : String) :
    ∀ (rows : List Row) (st : RunState), ∃ w : List Row,
      (goodRun bs id rows st).observed = st.observed ++ w ∧
      w ++ (goodRun bs id rows st).batch = st.batch ++ rows ∧
      (goodRun bs id rows st).db =
        (if w.isEmpty then st.db
         else updateProgress id w.length (insertAllRows w st.db)) := by
  intro rows
  induction rows with
  | nil =>
    intro st
    exact ⟨[], by simp [goodRun], by simp [goodRun], by simp [goodRun]⟩
  | cons r rest ih =>
    intro st
    rw [goodRun_cons]
    by_cases hlen : bs ≤ (st.batch ++ [r]).length
    · rw [goodStep_full bs id r st hlen]
      obtain ⟨w2, h1, h2, h3⟩ := ih
        ⟨updateProgress id (st.batch ++ [r]).length
            (insertAllRows (st.batch ++ [r]) st.db),
          st.observed ++ (st.batch ++ [r]), [], st.wcount + 1⟩
      refine ⟨(st.batch ++ [r]) ++ w2, ?_, ?_, ?_⟩
      · rw [h1]
        simp
      · rw [List.append_assoc, h2]
        simp
      · rw [h3]
        have hne : ((st.batch ++ [r]) ++ w2).isEmpty = false := by
          simp
        rw [hne]
        by_cases hw2 : w2.isEmpty
        · have : w2 = [] := List.isEmpty_iff.mp hw2
          subst this
          simp
        · have : w2.isEmpty = false := by
            cases hempty : w2.isEmpty
            · rfl
            · exact absurd hempty hw2
          rw [this]
          dsimp only
          rw [updateProgress_insertAllRows, insertAllRows_comp,
            updateProgress_comp, List.length_append]
          simp
          congr 1
          omega
    · rw [goodStep_accum bs id r st hlen]
      obtain ⟨w2, h1, h2, h3⟩ := ih ⟨st.db, st.observed, st.batch ++ [r], st.wcount⟩
      refine ⟨w2, h1, ?_, h3⟩
      rw [h2]
      simp

theorem goodRun_batch_length (bs : Nat) (id : String) (hbs : 0 < bs) :
    ∀ (rows : List Row) (st : RunState), st.batch.length < bs →
      (goodRun bs id rows st).batch.length =
        (st.batch.length + rows.length) % bs := by
  intro rows
  induction rows with
  | nil =>
    intro st h
    simp [goodRun, Nat.mod_eq_of_lt h]
  | cons r rest ih =>
    intro st h
    rw [goodRun_cons]
    by_cases hlen : bs ≤ (st.batch ++ [r]).length
    · have hb2 : st.batch.length + 1 = bs := by
        simp at hlen
        omega
      rw [goodStep_full bs id r st hlen]
      rw [ih ⟨_, _, [], _⟩ hbs]
      have harith : st.batch.length + (r :: rest).length = bs + rest.length := by
        simp [List.length_cons]
        omega
      rw [harith, Nat.add_mod_left]
      simp
    · have hb2 : st.batch.length + 1 < bs := by
        simp at hlen
        omega
      rw [goodStep_accum bs id r st hlen]
      rw [ih ⟨st.db, st.observed, st.batch ++ [r], st.wcount⟩ (by simpa using hb2)]
      congr 1
      simp [List.length_cons]
      omega

/-! ## Fusing the loop with a fault-free prefix of the stream -/

theorem streamLoop_good_fusion (env : Env) (bs : Nat) (id hdr : String)
    (hd : ∀ i, env.diskLow i = false) (hw : ∀ i, env.writeFault i = .ok) :
    ∀ (lines : List String) (evs : List LineEvent) (st : RunState),
      (∀ l ∈ lines, l ≠ "") →
      streamLoop env bs id hdr (lines.map .line ++ evs) st =
        streamLoop env bs id hdr evs
          (goodRun bs id (lines.map (parseRow hdr)) st) := by
  intro lines
  induction lines with
  | nil =>
    intro evs st _
    simp [goodRun]
  | cons l rest ih =>
    intro evs st hne
    have hl : l ≠ "" := hne l (by simp)
    simp only [List.map_cons, List.cons_append, streamLoop, if_neg hl]
    rw [goodRun_cons]
    by_cases hlen : bs ≤ (st.batch ++ [parseRow hdr l]).length
    · rw [if_pos hlen,
        write_batch_ok env st.wcount id (st.batch ++ [parseRow hdr l]) st.db
          (hd st.wcount) (hw st.wcount)]
      dsimp only
      rw [goodStep_full bs id (parseRow hdr l) st hlen]
      exact ih evs _ (fun x hx => hne x (by simp [hx]))
    · rw [if_neg hlen]
      rw [goodStep_accum bs id (parseRow hdr l) st hlen]
      exact ih evs _ (fun x hx => hne x (by simp [hx]))

/-! ## The loop under a low-disk guard answer -/

theorem streamLoop_guard_low (env : Env) (bs : Nat) (id hdr : String) :
    ∀ (lines : List String) (st : RunState),
      (∀ l ∈ lines, l ≠ "") → env.diskLow st.wcount = true →
      streamLoop env bs id hdr (lines.map .line) st =
          .ok ⟨st.db, st.observed, st.batch ++ lines.map (parseRow hdr),
            st.wcount⟩ ∨
        streamLoop env bs id hdr (lines.map .line) st =
          .error ("Disk space is running low", st.db) := by
  intro lines
  induction lines with
  | nil =>
    intro st _ _
    left
    simp [streamLoop]
  | cons l rest ih =>
    intro st hne hlow
    have hl : l ≠ "" := hne l (by simp)
    simp only [List.map_cons, streamLoop, if_neg hl]
    by_cases hlen : bs ≤ (st.batch ++ [parseRow hdr l]).length
    · rw [if_pos hlen,
        write_batch_guard_low env st.wcount id (st.batch ++ [parseRow hdr l])
          st.db hlow]
      right
      rfl
    · rw [if_neg hlen]
      rcases ih ⟨st.db, st.observed, st.batch ++ [parseRow hdr l], st.wcount⟩
          (fun x hx => hne x (by simp [hx])) hlow with h | h
      · left
        rw [h]
        simp
      · right
        exact h

/-! ## The loop, conditioned on succeeding, equals its pure mirror -/

theorem streamLoop_ok_eq_goodRun (env : Env) (bs : Nat) (id hdr : String) :
    ∀ (lines : List String) (st st' : RunState),
      (∀ l ∈ lines, l ≠ "") →
      streamLoop env bs id hdr (lines.map .line) st = .ok st' →
      st' = goodRun bs id (lines.map (parseRow hdr)) st := by
  intro lines
  induction lines with
  | nil =>
    intro st st' _ h
    simp only [List.map_nil] at h ⊢
    have hnil : streamLoop env bs id hdr [] st = .ok st := rfl
    rw [hnil] at h
    injection h with h2
    rw [← h2]
    rfl
  | cons l rest ih =>
    intro st st' hne h
    have hl : l ≠ "" := hne l (by simp)
    simp only [List.map_cons, streamLoop, if_neg hl] at h
    rw [List.map_cons, goodRun_cons]
    by_cases hlen : bs ≤ (st.batch ++ [parseRow hdr l]).length
    · rw [if_pos hlen] at h
      cases hwb : write_batch env st.wcount id (st.batch ++ [parseRow hdr l]) st.db with
      | error p => rw [hwb] at h; simp at h
      | ok db2 =>
        rw [hwb] at h
        dsimp only at h
        rw [goodStep_full bs id (parseRow hdr l) st hlen]
        have hdb2 := write_batch_ok_shape env st.wcount id _ st.db db2 hwb
        subst hdb2
        exact ih _ st' (fun x hx => hne x (by simp [hx])) h
    · rw [if_neg hlen] at h
      rw [goodStep_accum bs id (parseRow hdr l) st hlen]
      exact ih _ st' (fun x hx => hne x (by simp [hx])) h

/-! ## More lookup helpers -/

theorem lookupImport_updWhere_self (id : String) (g : ImportRecord → ImportRecord)
    (hg : ∀ r, (g r).id = r.id) (db : DbState) :
    lookupImport id (updWhere id g db) = (lookupImport id db).map g := by
  rw [lookupImport_updWhere id id g hg db]
  cases hr : lookupImport id db with
  | none => rfl
  | some r =>
    have := lookupImport_found id db r hr
    simp [this]

theorem lookupImport_insertAllRows (k : String) (rows : List Row) (db : DbState) :
    lookupImport k (insertAllRows rows db) = lookupImport k db := by
  unfold lookupImport
  rw [insertAllRows_imports]

/-! ## `transformTarget` on a present table, without faults -/

theorem transformTarget_some (env : Env) (tys : List (String × ColType))
    (db : DbState) (t : TargetTable) (htf : env.transformFault = none)
    (ht : db.target = some t) :
    transformTarget env tys db = .ok { db with target := some ⟨t.rows, some tys⟩ } := by
  unfold transformTarget
  rw [htf]
  dsimp only
  rw [ht]

theorem transformTarget_fault (env : Env) (tys : List (String × ColType))
    (db : DbState) (e : String) (htf : env.transformFault = some e) :
    transformTarget env tys db = .error (e, db) := by
  unfold transformTarget
  rw [htf]

/-! ## What a successful `finishImport` produces after a clean loop -/

theorem updateComplete_target (id ts : String) (db : DbState) :
    (updateComplete id ts db).target = db.target := rfl

theorem lookupImport_updateComplete_self (id ts : String) (db : DbState) :
    lookupImport id (updateComplete id ts db) =
      (lookupImport id db).map (fun r => { r with import_complete := some ts }) :=
  lookupImport_updWhere_self id (fun r => { r with import_complete := some ts })
    (fun r => rfl) db

theorem finishImport_spec (env : Env) (id : String) (st : RunState)
    (db : DbState) (w R : List Row) (fin : DbState)
    (hobs : st.observed = w)
    (hbw : w ++ st.batch = R)
    (hdb : st.db = (if w.isEmpty then db
      else updateProgress id w.length (insertAllRows w db)))
    (htgt : db.target = none)
    (h : finishImport env id st = .ok fin) :
    fin.target = some ⟨R, some (detectTypes R)⟩ ∧
    lookupImport id fin = (lookupImport id db).map
      (fun r => { r with
        row_progress := r.row_progress + R.length,
        import_complete := some env.now }) := by
  unfold finishImport at h
  by_cases hbatch : st.batch.isEmpty
  · rw [if_pos hbatch] at h
    try dsimp only at h
    have hbe : st.batch = [] := List.isEmpty_iff.mp hbatch
    have hwR : w = R := by rw [← hbw, hbe]; simp
    subst hwR
    cases htr : transformTarget env (detectTypes st.observed) st.db with
    | error p => rw [htr] at h; simp at h
    | ok db3 =>
      rw [htr] at h
      injection h with hfin
      subst hfin
      rcases transformTarget_cases env (detectTypes st.observed) st.db with
        ⟨t, ht1, ht2, ht3⟩ | ⟨e, hterr⟩
      · by_cases hw : w.isEmpty
        · rw [hdb, if_pos hw, htgt] at ht1
          exact absurd ht1 (by simp)
        · have hwe : w.isEmpty = false := by
            cases hh : w.isEmpty
            · rfl
            · exact absurd hh hw
          rw [hdb, hwe, if_neg Bool.false_ne_true] at ht1
          rw [updateProgress_target, insertAllRows_target] at ht1
          have htR : targetRows db = [] := by simp [targetRows, htgt]
          have htT : typesOf db = none := by simp [typesOf, htgt]
          rw [htR, htT] at ht1
          injection ht1 with ht1e
          rw [ht3] at htr
          injection htr with htr2
          subst htr2
          constructor
          · rw [updateComplete_target]
            dsimp only
            rw [← ht1e, hobs]
            simp
          · rw [lookupImport_updateComplete_self]
            have himp : lookupImport id
                { st.db with target := some ⟨t.rows, some (detectTypes st.observed)⟩ } =
                lookupImport id st.db := rfl
            rw [himp, hdb, hwe, if_neg Bool.false_ne_true]
            rw [lookupImport_updateProgress, lookupImport_insertAllRows]
            cases lookupImport id db <;> rfl
      · rw [hterr] at htr
        exact absurd htr (by simp)
  · rw [if_neg hbatch] at h
    cases hwb : write_batch env st.wcount id st.batch st.db with
    | error p => rw [hwb] at h; simp at h
    | ok db2 =>
      rw [hwb] at h
      try dsimp only at h
      have hdb2 := write_batch_ok_shape env st.wcount id st.batch st.db db2 hwb
      have hlen : w.length + st.batch.length = R.length := by
        rw [← hbw, List.length_append]
      have hcollapse : db2 = updateProgress id R.length (insertAllRows R db) := by
        rw [hdb2, hdb]
        by_cases hw : w.isEmpty
        · have hwnil : w = [] := List.isEmpty_iff.mp hw
          rw [if_pos hw]
          rw [hwnil] at hbw
          simp at hbw
          rw [hbw]
        · have hwe : w.isEmpty = false := by
            cases hh : w.isEmpty
            · rfl
            · exact absurd hh hw
          rw [hwe, if_neg Bool.false_ne_true]
          rw [updateProgress_insertAllRows, insertAllRows_comp,
            updateProgress_comp, hbw]
          rw [hlen]
      have hobs2 : st.observed ++ st.batch = R := by rw [hobs, hbw]
      rw [hobs2] at h
      have htgt2 : db2.target = some ⟨R, none⟩ := by
        rw [hcollapse, updateProgress_target, insertAllRows_target]
        have htR : targetRows db = [] := by simp [targetRows, htgt]
        have htT : typesOf db = none := by simp [typesOf, htgt]
        rw [htR, htT]
        simp
      cases htr : transformTarget env (detectTypes R) db2 with
      | error p => rw [htr] at h; simp at h
      | ok db3 =>
        rw [htr] at h
        injection h with hfin
        subst hfin
        rcases transformTarget_cases env (detectTypes R) db2 with
          ⟨t, ht1, ht2, ht3⟩ | ⟨e, hterr⟩
        · rw [htgt2] at ht1
          injection ht1 with ht1e
          rw [ht3] at htr
          injection htr with htr2
          subst htr2
          constructor
          · rw [updateComplete_target]
            dsimp only
            rw [← ht1e]
          · rw [lookupImport_updateComplete_self]
            have himp : lookupImport id
                { db2 with target := some ⟨t.rows, some (detectTypes R)⟩ } =
                lookupImport id db2 := rfl
            rw [himp, hcollapse]
            rw [lookupImport_updateProgress, lookupImport_insertAllRows]
            cases lookupImport id db <;> rfl
        · rw [hterr] at htr
          exact absurd htr (by simp)

/-! ## A successful run, characterized -/

theorem runBS_ok_spec (env : Env) (bs : Nat) (id hdr : String)
    (lines : List String) (db fin : DbState)
    (hstream : env.stream = .line hdr :: lines.map .line)
    (hne : ∀ l ∈ lines, l ≠ "")
    (htgt : db.target = none)
    (h : runBS env bs id db = .ok fin) :
    fin.target = some ⟨lines.map (parseRow hdr),
      some (detectTypes (lines.map (parseRow hdr)))⟩ ∧
    lookupImport id fin = (lookupImport id db).map
      (fun r => { r with
        row_progress := r.row_progress + lines.length,
        import_complete := some env.now }) := by
  unfold runBS at h
  rw [hstream] at h
  dsimp only at h
  cases hloop : streamLoop env bs id hdr (lines.map .line) ⟨db, [], [], 0⟩ with
  | error p => rw [hloop] at h; simp at h
  | ok st2 =>
    rw [hloop] at h
    have heq := streamLoop_ok_eq_goodRun env bs id hdr lines ⟨db, [], [], 0⟩ st2 hne hloop
    obtain ⟨w, h1, h2, h3⟩ := goodRun_spec bs id (lines.map (parseRow hdr)) ⟨db, [], [], 0⟩
    rw [← heq] at h1 h2 h3
    dsimp only at h1 h2 h3
    rw [List.nil_append] at h1
    rw [List.nil_append] at h2
    have := finishImport_spec env id st2 db w (lines.map (parseRow hdr)) fin h1 h2 h3 htgt h
    rw [List.length_map] at this
    exact this

/-! ## A fault-free run on a clean stream succeeds -/

theorem runBS_good (env : Env) (bs : Nat) (id hdr : String)
    (lines : List String) (db : DbState)
    (hstream : env.stream = .line hdr :: lines.map .line)
    (hne : ∀ l ∈ lines, l ≠ "") (hlines : lines ≠ [])
    (hd : ∀ i, env.diskLow i = false) (hw : ∀ i, env.writeFault i = .ok)
    (htf : env.transformFault = none) (htgt : db.target = none) :
    ∃ fin, runBS env bs id db = .ok fin := by
  unfold runBS
  rw [hstream]
  dsimp only
  have hfuse := streamLoop_good_fusion env bs id hdr hd hw lines [] ⟨db, [], [], 0⟩ hne
  rw [List.append_nil] at hfuse
  rw [hfuse]
  have hnil : streamLoop env bs id hdr []
      (goodRun bs id (lines.map (parseRow hdr)) ⟨db, [], [], 0⟩) =
      .ok (goodRun bs id (lines.map (parseRow hdr)) ⟨db, [], [], 0⟩) := rfl
  rw [hnil]
  dsimp only
  obtain ⟨w, h1, h2, h3⟩ := goodRun_spec bs id (lines.map (parseRow hdr)) ⟨db, [], [], 0⟩
  dsimp only at h1 h2 h3
  rw [List.nil_append] at h1
  rw [List.nil_append] at h2
  set st2 := goodRun bs id (lines.map (parseRow hdr)) ⟨db, [], [], 0⟩ with hst2
  unfold finishImport
  by_cases hb : st2.batch.isEmpty
  · rw [if_pos hb]
    have hbe : st2.batch = [] := List.isEmpty_iff.mp hb
    have hwR : w = lines.map (parseRow hdr) := by rw [← h2, hbe]; simp
    have hwne : w.isEmpty = false := by
      rw [hwR]
      cases hl : lines with
      | nil => exact absurd hl hlines
      | cons a t => simp
    have ht2 : st2.db.target = some ⟨targetRows db ++ w, typesOf db⟩ := by
      rw [h3, hwne, if_neg Bool.false_ne_true, updateProgress_target,
        insertAllRows_target]
    dsimp only
    rw [transformTarget_some env (detectTypes st2.observed) st2.db
      ⟨targetRows db ++ w, typesOf db⟩ htf ht2]
    exact ⟨_, rfl⟩
  · rw [if_neg hb]
    rw [write_batch_ok env st2.wcount id st2.batch st2.db (hd st2.wcount) (hw st2.wcount)]
    dsimp only
    have ht2 : (updateProgress id st2.batch.length (insertAllRows st2.batch st2.db)).target =
        some ⟨targetRows st2.db ++ st2.batch, typesOf st2.db⟩ := by
      rw [updateProgress_target, insertAllRows_target]
    rw [transformTarget_some env
      (detectTypes (st2.observed ++ st2.batch))
      (updateProgress id st2.batch.length (insertAllRows st2.batch st2.db))
      ⟨targetRows st2.db ++ st2.batch, typesOf st2.db⟩ htf ht2]
    exact ⟨_, rfl⟩

/-! ## Claim C1: a fully successful import writes exactly N rows -/

/-- Claim C1: when the streamed input is a header line followed by N data
lines and the background task runs to completion (here: a fault-free
environment), the Import Record's `row_progress` equals N — and this is
independent of the batch threshold: the same count results for every batch
size `bs`, the source's fixed 100 included, with full batches written as
they fill and one extra write for the final partial batch. -/
theorem claim_C1 (hdr : String) (lines : List String) (env : Env)
    (meta : SocrataMeta) (url : String) (rc : Option Int) (ts : String)
    (db : DbState)
    (hstream : env.stream = .line hdr :: lines.map .line)
    (hne : ∀ l ∈ lines, l ≠ "") (hlines : lines ≠ [])
    (hd : ∀ i, env.diskLow i = false) (hw : ∀ i, env.writeFault i = .ok)
    (htf : env.transformFault = none) :
    progressOf meta.id (importPipeline env meta url rc ts db) =
        some lines.length ∧
      ∀ bs, progressOf meta.id (catchIntoError meta.id
        (runBS env bs meta.id (import_socrata_start meta url rc ts db))) =
          some lines.length := by
  have hgen : ∀ bs, progressOf meta.id (catchIntoError meta.id
      (runBS env bs meta.id (import_socrata_start meta url rc ts db))) =
        some lines.length := by
    intro bs
    obtain ⟨fin, hfin⟩ := runBS_good env bs meta.id hdr lines
      (import_socrata_start meta url rc ts db) hstream hne hlines hd hw htf rfl
    obtain ⟨ht, hl⟩ := runBS_ok_spec env bs meta.id hdr lines
      (import_socrata_start meta url rc ts db) fin hstream hne rfl hfin
    have hcatch : catchIntoError meta.id
        (runBS env bs meta.id (import_socrata_start meta url rc ts db)) = fin := by
      rw [hfin]
      rfl
    rw [hcatch]
    unfold progressOf
    rw [hl, lookupImport_start]
    simp [freshRecord]
  exact ⟨hgen 100, hgen⟩

/-- Witness for C1: the repository test's own stream
(`id,species` then `1,Dog` then `2,Chicken`) ends with `row_progress = 2`. -/
theorem claim_C1_witness :
    (∀ l ∈ ["1,Dog", "2,Chicken"], l ≠ "") ∧
    progressOf "24uj-dj8v" (importPipeline
      ⟨[.line "id,species", .line "1,Dog", .line "2,Chicken"],
        fun _ => false, fun _ => .ok, none, "T"⟩
      ⟨"24uj-dj8v", "Permits", "\x7b\x7d"⟩ "u" (some 2) "S" ⟨[], none⟩) = some 2 :=
  ⟨by decide,
    (claim_C1 "id,species" ["1,Dog", "2,Chicken"]
      ⟨[.line "id,species", .line "1,Dog", .line "2,Chicken"],
        fun _ => false, fun _ => .ok, none, "T"⟩
      ⟨"24uj-dj8v", "Permits", "\x7b\x7d"⟩ "u" (some 2) "S" ⟨[], none⟩
      rfl (by decide) (by decide) (fun _ => rfl) (fun _ => rfl) rfl).1⟩

/-! ## A run whose stream fails mid-way -/

theorem runBS_stream_fail (env : Env) (bs : Nat) (id hdr : String)
    (lines : List String) (m : String) (rest : List LineEvent) (db : DbState)
    (hstream : env.stream = .line hdr :: (lines.map .line ++ .fail m :: rest))
    (hne : ∀ l ∈ lines, l ≠ "")
    (hd : ∀ i, env.diskLow i = false) (hw : ∀ i, env.writeFault i = .ok) :
    runBS env bs id db = .error (m,
      (goodRun bs id (lines.map (parseRow hdr)) ⟨db, [], [], 0⟩).db) := by
  unfold runBS
  rw [hstream]
  dsimp only
  rw [streamLoop_good_fusion env bs id hdr hd hw lines (.fail m :: rest)
    ⟨db, [], [], 0⟩ hne]
  rfl

theorem targetRows_updateProgress (id : String) (n : Nat) (db : DbState) :
    targetRows (updateProgress id n db) = targetRows db := rfl

theorem targetRows_updateError (id m : String) (db : DbState) :
    targetRows (updateError id m db) = targetRows db := rfl

theorem typesOf_updateProgress (id : String) (n : Nat) (db : DbState) :
    typesOf (updateProgress id n db) = typesOf db := rfl

theorem typesOf_updateError (id m : String) (db : DbState) :
    typesOf (updateError id m db) = typesOf db := rfl

theorem errorOf_insertAllRows (k : String) (rows : List Row) (db : DbState) :
    errorOf k (insertAllRows rows db) = errorOf k db := by
  unfold errorOf
  rw [lookupImport_insertAllRows]

theorem completeOf_insertAllRows (k : String) (rows : List Row) (db : DbState) :
    completeOf k (insertAllRows rows db) = completeOf k db := by
  unfold completeOf
  rw [lookupImport_insertAllRows]

theorem progressOf_insertAllRows (k : String) (rows : List Row) (db : DbState) :
    progressOf k (insertAllRows rows db) = progressOf k db := by
  unfold progressOf
  rw [lookupImport_insertAllRows]

theorem errorOf_updateProgress (id : String) (n : Nat) (k : String)
    (db : DbState) : errorOf k (updateProgress id n db) = errorOf k db :=
  errorOf_updWhere id k (addProgress n) (fun r => rfl) (fun r => rfl) db

theorem completeOf_updateProgress (id : String) (n : Nat) (k : String)
    (db : DbState) : completeOf k (updateProgress id n db) = completeOf k db :=
  completeOf_updWhere id k (addProgress n) (fun r => rfl) (fun r => rfl) db

/-! ## Claim C4: a mid-stream failure is recorded and committed batches stay -/

/-- Claim C4: when the stream raises after the data lines `lines` (and
before anything else), the background task stops (nothing after the failure
is read — the conclusion does not depend on `rest`), the exception's message
lands in the Import Record's `error`, `import_complete` stays unset, and
exactly the full batches committed before the failure remain: with the
source's batch size 100, `row_progress = 100 * (lines.length / 100)` and the
target table holds the same number of rows (counter and table agree). -/
theorem claim_C4 (hdr : String) (lines : List String) (m : String)
    (rest : List LineEvent) (env : Env) (meta : SocrataMeta) (url : String)
    (rc : Option Int) (ts : String) (db : DbState)
    (hstream : env.stream = .line hdr :: (lines.map .line ++ .fail m :: rest))
    (hne : ∀ l ∈ lines, l ≠ "")
    (hd : ∀ i, env.diskLow i = false) (hw : ∀ i, env.writeFault i = .ok) :
    errorOf meta.id (importPipeline env meta url rc ts db) = some m ∧
    completeOf meta.id (importPipeline env meta url rc ts db) = none ∧
    progressOf meta.id (importPipeline env meta url rc ts db) =
      some (100 * (lines.length / 100)) ∧
    (targetRows (importPipeline env meta url rc ts db)).length =
      100 * (lines.length / 100) := by
  have hrun := runBS_stream_fail env 100 meta.id hdr lines m rest
    (import_socrata_start meta url rc ts db) hstream hne hd hw
  have hpipe : importPipeline env meta url rc ts db =
      updateError meta.id m (goodRun 100 meta.id (lines.map (parseRow hdr))
        ⟨import_socrata_start meta url rc ts db, [], [], 0⟩).db := by
    unfold importPipeline run_the_import_catch_errors run_the_import
    rw [hrun]
    rfl
  obtain ⟨w, h1, h2, h3⟩ := goodRun_spec 100 meta.id (lines.map (parseRow hdr))
    ⟨import_socrata_start meta url rc ts db, [], [], 0⟩
  have hblen := goodRun_batch_length 100 meta.id (by omega)
    (lines.map (parseRow hdr))
    ⟨import_socrata_start meta url rc ts db, [], [], 0⟩ (by simp)
  have hwlen : w.length = 100 * (lines.length / 100) := by
    have hc := congrArg List.length h2
    rw [List.length_append] at hc
    simp at hc hblen
    omega
  set dK := (goodRun 100 meta.id (lines.map (parseRow hdr))
    ⟨import_socrata_start meta url rc ts db, [], [], 0⟩).db with hdK
  have hprog : progressOf meta.id dK = some w.length := by
    rw [h3]
    by_cases hwe : w.isEmpty
    · have : w = [] := List.isEmpty_iff.mp hwe
      subst this
      rw [if_pos hwe]
      dsimp only
      rw [progressOf_start]
      rfl
    · have hwe2 : w.isEmpty = false := by
        cases hh : w.isEmpty
        · rfl
        · exact absurd hh hwe
      rw [hwe2, if_neg Bool.false_ne_true, progressOf_updateProgress,
        progressOf_insertAllRows, progressOf_start]
      simp
  have hcomp : completeOf meta.id dK = none := by
    rw [h3]
    by_cases hwe : w.isEmpty
    · rw [if_pos hwe]
      dsimp only
      rw [completeOf_start]
    · have hwe2 : w.isEmpty = false := by
        cases hh : w.isEmpty
        · rfl
        · exact absurd hh hwe
      rw [hwe2, if_neg Bool.false_ne_true, completeOf_updateProgress,
        completeOf_insertAllRows, completeOf_start]
  have hsome : (lookupImport meta.id dK).isSome = true := by
    unfold progressOf at hprog
    cases hh : lookupImport meta.id dK
    · rw [hh] at hprog
      simp at hprog
    · rfl
  have htrows : (targetRows dK).length = w.length := by
    rw [h3]
    by_cases hwe : w.isEmpty
    · have : w = [] := List.isEmpty_iff.mp hwe
      subst this
      rw [if_pos hwe]
      dsimp only
      rfl
    · have hwe2 : w.isEmpty = false := by
        cases hh : w.isEmpty
        · rfl
        · exact absurd hh hwe
      rw [hwe2, if_neg Bool.false_ne_true, targetRows_updateProgress,
        insertAllRows_targetRows]
      have : targetRows (import_socrata_start meta url rc ts db) = [] := rfl
      rw [this]
      simp
  refine ⟨?_, ?_, ?_, ?_⟩
  · rw [hpipe]
    exact errorOf_updateError_self meta.id m dK hsome
  · rw [hpipe, completeOf_updateError]
    exact hcomp
  · rw [hpipe, progressOf_updateError, hprog, hwlen]
  · rw [hpipe, targetRows_updateError, htrows, hwlen]

/-- Witness for C4: one data line then a stream failure: `error = "boom"`,
`import_complete` unset, zero full batches committed. -/
theorem claim_C4_witness :
    (∀ l ∈ ["1,Dog"], l ≠ "") ∧
    errorOf "24uj-dj8v" (importPipeline
      ⟨[.line "id,species", .line "1,Dog", .fail "boom"],
        fun _ => false, fun _ => .ok, none, "T"⟩
      ⟨"24uj-dj8v", "Permits", "\x7b\x7d"⟩ "u" (some 2) "S" ⟨[], none⟩) = some "boom" :=
  ⟨by decide,
    (claim_C4 "id,species" ["1,Dog"] "boom" []
      ⟨[.line "id,species", .line "1,Dog", .fail "boom"],
        fun _ => false, fun _ => .ok, none, "T"⟩
      ⟨"24uj-dj8v", "Permits", "\x7b\x7d"⟩ "u" (some 2) "S" ⟨[], none⟩
      rfl (by decide) (fun _ => rfl) (fun _ => rfl)).1⟩

/-! ## A run whose type rewrite faults -/

theorem runBS_transform_fault (env : Env) (bs : Nat) (id hdr : String)
    (lines : List String) (db : DbState) (e : String)
    (hstream : env.stream = .line hdr :: lines.map .line)
    (hne : ∀ l ∈ lines, l ≠ "")
    (hd : ∀ i, env.diskLow i = false) (hw : ∀ i, env.writeFault i = .ok)
    (htf : env.transformFault = some e) :
    ∃ d, runBS env bs id db = .error (e, d) := by
  unfold runBS
  rw [hstream]
  dsimp only
  have hfuse := streamLoop_good_fusion env bs id hdr hd hw lines []
    ⟨db, [], [], 0⟩ hne
  rw [List.append_nil] at hfuse
  rw [hfuse]
  set st2 := goodRun bs id (lines.map (parseRow hdr)) ⟨db, [], [], 0⟩ with hst2
  have hnil : streamLoop env bs id hdr [] st2 = .ok st2 := rfl
  rw [hnil]
  dsimp only
  unfold finishImport
  by_cases hb : st2.batch.isEmpty
  · rw [if_pos hb]
    dsimp only
    rw [transformTarget_fault env (detectTypes st2.observed) st2.db e htf]
    exact ⟨st2.db, rfl⟩
  · rw [if_neg hb]
    rw [write_batch_ok env st2.wcount id st2.batch st2.db (hd st2.wcount)
      (hw st2.wcount)]
    dsimp only
    rw [transformTarget_fault env (detectTypes (st2.observed ++ st2.batch))
      (updateProgress id st2.batch.length (insertAllRows st2.batch st2.db)) e htf]
    exact ⟨_, rfl⟩

/-! ## Claim C6: finalizing runs exactly when streaming succeeds -/

/-- Claim C6: (i) when the streaming phase completes without error, the
finalizing phase runs: the target table's column types are rewritten to the
type tracker's finalized types for the observed rows, `import_complete` is
stamped, and `error` stays null; (ii) `import_complete` is stamped only
after the type rewrite — if the rewrite raises, `import_complete` stays
unset and the error is recorded instead; (iii) the finalizing phase is only
reached if streaming completes — after a mid-stream failure the provisional
(unrewritten) column types remain and `import_complete` stays unset. -/
theorem claim_C6 (hdr : String) (lines : List String) (meta : SocrataMeta)
    (url : String) (rc : Option Int) (ts : String) (db : DbState)
    (hne : ∀ l ∈ lines, l ≠ "") (hlines : lines ≠ []) :
    (∀ env : Env, env.stream = .line hdr :: lines.map .line →
      (∀ i, env.diskLow i = false) → (∀ i, env.writeFault i = .ok) →
      env.transformFault = none →
      (importPipeline env meta url rc ts db).target =
          some ⟨lines.map (parseRow hdr),
            some (detectTypes (lines.map (parseRow hdr)))⟩ ∧
        completeOf meta.id (importPipeline env meta url rc ts db) =
          some env.now ∧
        errorOf meta.id (importPipeline env meta url rc ts db) = none) ∧
    (∀ env : Env, env.stream = .line hdr :: lines.map .line →
      (∀ i, env.diskLow i = false) → (∀ i, env.writeFault i = .ok) →
      ∀ e, env.transformFault = some e →
      completeOf meta.id (importPipeline env meta url rc ts db) = none ∧
        errorOf meta.id (importPipeline env meta url rc ts db) = some e) ∧
    (∀ (env : Env) (m : String) (rest : List LineEvent),
      env.stream = .line hdr :: (lines.map .line ++ .fail m :: rest) →
      (∀ i, env.diskLow i = false) → (∀ i, env.writeFault i = .ok) →
      typesOf (importPipeline env meta url rc ts db) = none ∧
        completeOf meta.id (importPipeline env meta url rc ts db) = none) := by
  refine ⟨?_, ?_, ?_⟩
  · intro env hstream hd hw htf
    obtain ⟨fin, hfin⟩ := runBS_good env 100 meta.id hdr lines
      (import_socrata_start meta url rc ts db) hstream hne hlines hd hw htf rfl
    obtain ⟨ht, hl⟩ := runBS_ok_spec env 100 meta.id hdr lines
      (import_socrata_start meta url rc ts db) fin hstream hne rfl hfin
    have hpipe : importPipeline env meta url rc ts db = fin := by
      unfold importPipeline run_the_import_catch_errors run_the_import
      rw [hfin]
      rfl
    rw [hpipe]
    refine ⟨ht, ?_, ?_⟩
    · unfold completeOf
      rw [hl, lookupImport_start]
      rfl
    · unfold errorOf
      rw [hl, lookupImport_start]
      rfl
  · intro env hstream hd hw e htf
    obtain ⟨d, hrun⟩ := runBS_transform_fault env 100 meta.id hdr lines
      (import_socrata_start meta url rc ts db) e hstream hne hd hw htf
    have hpipe : importPipeline env meta url rc ts db = updateError meta.id e d := by
      unfold importPipeline run_the_import_catch_errors run_the_import
      rw [hrun]
      rfl
    have hsafe := runBS_error_shape env 100 meta.id
      (import_socrata_start meta url rc ts db) e d hrun
    constructor
    · rw [hpipe, completeOf_updateError, hsafe.2.2.1 meta.id, completeOf_start]
    · rw [hpipe]
      exact errorOf_updateError_self meta.id e d
        (by rw [hsafe.2.2.2 meta.id, lookupImport_start]; rfl)
  · intro env m rest hstream hd hw
    have hrun := runBS_stream_fail env 100 meta.id hdr lines m rest
      (import_socrata_start meta url rc ts db) hstream hne hd hw
    have hpipe : importPipeline env meta url rc ts db =
        updateError meta.id m (goodRun 100 meta.id (lines.map (parseRow hdr))
          ⟨import_socrata_start meta url rc ts db, [], [], 0⟩).db := by
      unfold importPipeline run_the_import_catch_errors run_the_import
      rw [hrun]
      rfl
    obtain ⟨w, h1, h2, h3⟩ := goodRun_spec 100 meta.id (lines.map (parseRow hdr))
      ⟨import_socrata_start meta url rc ts db, [], [], 0⟩
    have hsafe := runBS_error_shape env 100 meta.id
      (import_socrata_start meta url rc ts db) m _ hrun
    constructor
    · rw [hpipe, typesOf_updateError, h3]
      by_cases hwe : w.isEmpty
      · rw [if_pos hwe]
        rfl
      · have hwe2 : w.isEmpty = false := by
          cases hh : w.isEmpty
          · rfl
          · exact absurd hh hwe
        rw [hwe2, if_neg Bool.false_ne_true, typesOf_updateProgress,
          typesOf_insertAllRows]
        rfl
    · rw [hpipe, completeOf_updateError, hsafe.2.2.1 meta.id, completeOf_start]

/-- Witness for C6: on the repository test's stream the pipeline rewrites
`id` to integer and `species` to text, stamps `import_complete`, and leaves
`error` null. -/
theorem claim_C6_witness :
    (∀ l ∈ ["1,Dog", "2,Chicken"], l ≠ "") ∧
    (importPipeline
        ⟨[.line "id,species", .line "1,Dog", .line "2,Chicken"],
          fun _ => false, fun _ => .ok, none, "T"⟩
        ⟨"24uj-dj8v", "Permits", "\x7b\x7d"⟩ "u" (some 2) "S" ⟨[], none⟩).target =
      some ⟨[[("id", "1"), ("species", "Dog")], [("id", "2"), ("species", "Chicken")]],
        some [("id", ColType.integer), ("species", ColType.text)]⟩ :=
  ⟨by decide,
    by
      have h := ((claim_C6 "id,species" ["1,Dog", "2,Chicken"]
        ⟨"24uj-dj8v", "Permits", "\x7b\x7d"⟩ "u" (some 2) "S" ⟨[], none⟩
        (by decide) (by decide)).1
        ⟨[.line "id,species", .line "1,Dog", .line "2,Chicken"],
          fun _ => false, fun _ => .ok, none, "T"⟩
        rfl (fun _ => rfl) (fun _ => rfl) rfl).1
      rw [h]
      decide⟩

/-! ## Claim C3: the disk-space guard gates every write -/

/-- Claim C3: the guard is consulted before any write: whenever it reports
low space, `write_batch` raises `Disk space is running low` and leaves the
durable state untouched (no rows inserted, `row_progress` unchanged); and if
the guard reports low space at its first consultation (index 0, before any
batch has been written), the whole import ends with zero rows committed, the
Import Record's `error` set to the disk-space message, `row_progress = 0`,
and the target table absent. -/
theorem claim_C3 :
    (∀ (env : Env) (i : Nat) (id : String) (rows : List Row) (db : DbState),
      env.diskLow i = true →
      write_batch env i id rows db =
        .error ("Disk space is running low", db)) ∧
    (∀ (hdr : String) (lines : List String) (env : Env) (meta : SocrataMeta)
      (url : String) (rc : Option Int) (ts : String) (db : DbState),
      env.stream = .line hdr :: lines.map .line →
      (∀ l ∈ lines, l ≠ "") → lines ≠ [] →
      env.diskLow 0 = true →
      errorOf meta.id (importPipeline env meta url rc ts db) =
          some "Disk space is running low" ∧
        progressOf meta.id (importPipeline env meta url rc ts db) = some 0 ∧
        (importPipeline env meta url rc ts db).target = none) := by
  constructor
  · intro env i id rows db h
    exact write_batch_guard_low env i id rows db h
  · intro hdr lines env meta url rc ts db hstream hne hlines hlow
    have hloop := streamLoop_guard_low env 100 meta.id hdr lines
      ⟨import_socrata_start meta url rc ts db, [], [], 0⟩ hne hlow
    have hpipe : importPipeline env meta url rc ts db =
        updateError meta.id "Disk space is running low"
          (import_socrata_start meta url rc ts db) := by
      unfold importPipeline run_the_import_catch_errors run_the_import runBS
      rw [hstream]
      dsimp only
      rcases hloop with h | h
      · rw [h]
        dsimp only
        unfold finishImport
        have hbne : ¬ ((([] : List Row) ++ lines.map (parseRow hdr)).isEmpty
            = true) := by
          cases hl : lines with
          | nil => exact absurd hl hlines
          | cons a t => simp
        rw [if_neg hbne]
        rw [write_batch_guard_low env 0 meta.id
          ([] ++ lines.map (parseRow hdr))
          (import_socrata_start meta url rc ts db) hlow]
        rfl
      · rw [h]
        rfl
    refine ⟨?_, ?_, ?_⟩
    · rw [hpipe]
      exact errorOf_updateError_self meta.id "Disk space is running low"
        (import_socrata_start meta url rc ts db)
        (by rw [lookupImport_start]; rfl)
    · rw [hpipe, progressOf_updateError, progressOf_start]
    · rw [hpipe, updateError_target, start_target]

/-- Witness for C3: a low-disk guard on the test stream: the single
`write_batch` call is refused with the state unchanged, and the pipeline
records the disk-space error with zero rows and no target table. -/
theorem claim_C3_witness :
    write_batch ⟨[], fun _ => true, fun _ => .ok, none, "T"⟩ 0 "x"
        [[("a", "1")]] ⟨[], none⟩ =
      .error ("Disk space is running low", ⟨[], none⟩) ∧
    errorOf "24uj-dj8v" (importPipeline
      ⟨[.line "id,species", .line "1,Dog"], fun _ => true, fun _ => .ok,
        none, "T"⟩
      ⟨"24uj-dj8v", "Permits", "\x7b\x7d"⟩ "u" (some 2) "S" ⟨[], none⟩) =
      some "Disk space is running low" :=
  ⟨claim_C3.1 ⟨[], fun _ => true, fun _ => .ok, none, "T"⟩ 0 "x"
      [[("a", "1")]] ⟨[], none⟩ rfl,
    (claim_C3.2 "id,species" ["1,Dog"]
      ⟨[.line "id,species", .line "1,Dog"], fun _ => true, fun _ => .ok,
        none, "T"⟩
      ⟨"24uj-dj8v", "Permits", "\x7b\x7d"⟩ "u" (some 2) "S" ⟨[], none⟩
      rfl (by decide) (by decide) rfl).1⟩

/-! ## Claim C2: one batch write is atomic -/

/-- Claim C2: a single `write_batch` call either applies both effects — the
batch's rows appended to the target table and `row_progress` advanced by the
batch length — or, on any failure (guard or either sqlite statement), leaves
the durable state exactly as it was, raising the error to the caller: the
`with db.conn:` transaction commits the two effects together or rolls both
back, so a counter that matched the table row count before the call still
matches after it, whatever happened. -/
theorem claim_C2 (env : Env) (i : Nat) (id : String) (rows : List Row)
    (db : DbState) :
    (∃ db2, write_batch env i id rows db = .ok db2 ∧
        targetRows db2 = targetRows db ++ rows ∧
        progressOf id db2 = (progressOf id db).map (fun p => p + rows.length) ∧
        (progressOf id db = some (targetRows db).length →
          progressOf id db2 = some (targetRows db2).length)) ∨
    (∃ e, write_batch env i id rows db = .error (e, db)) := by
  rcases write_batch_cases env i id rows db with hc | hc
  · left
    refine ⟨_, hc, ?_, ?_, ?_⟩
    · rw [targetRows_updateProgress, insertAllRows_targetRows]
    · rw [progressOf_updateProgress, progressOf_insertAllRows]
    · intro h
      rw [progressOf_updateProgress, progressOf_insertAllRows, h,
        targetRows_updateProgress, insertAllRows_targetRows]
      simp [List.length_append]
  · right
    exact hc

/-- Witness for C2, at a call whose progress `update` statement faults after
`insert_all` already ran: the transaction rolls everything back. -/
theorem claim_C2_witness :
    (∃ db2, write_batch
        ⟨[], fun _ => false, fun _ => .afterInsert "disk I/O error", none, "T"⟩
        0 "x" [[("a", "1")]] ⟨[], none⟩ = .ok db2 ∧
        targetRows db2 = targetRows (⟨[], none⟩ : DbState) ++ [[("a", "1")]] ∧
        progressOf "x" db2 =
          (progressOf "x" (⟨[], none⟩ : DbState)).map (fun p => p + 1) ∧
        (progressOf "x" (⟨[], none⟩ : DbState) =
            some (targetRows (⟨[], none⟩ : DbState)).length →
          progressOf "x" db2 = some (targetRows db2).length)) ∨
    (∃ e, write_batch
        ⟨[], fun _ => false, fun _ => .afterInsert "disk I/O error", none, "T"⟩
        0 "x" [[("a", "1")]] ⟨[], none⟩ = .error (e, ⟨[], none⟩)) :=
  claim_C2 ⟨[], fun _ => false, fun _ => .afterInsert "disk I/O error", none, "T"⟩
    0 "x" [[("a", "1")]] ⟨[], none⟩

/-! ## The target table's fate is a function of the run alone -/

theorem targetRows_congr {d1 d2 : DbState} (h : d1.target = d2.target) :
    targetRows d1 = targetRows d2 := by
  unfold targetRows
  rw [h]

theorem typesOf_congr {d1 d2 : DbState} (h : d1.target = d2.target) :
    typesOf d1 = typesOf d2 := by
  unfold typesOf
  rw [h]

theorem write_batch_shadow (env : Env) (i : Nat) (id : String)
    (rows : List Row) (d1 d2 : DbState) (h : d1.target = d2.target) :
    exShadow (write_batch env i id rows d1) =
      exShadow (write_batch env i id rows d2) := by
  unfold write_batch runTransaction writeTxBody
  cases hd : env.diskLow i
  · cases hf : env.writeFault i with
    | ok =>
      simp [exShadow, updateProgress_target, insertAllRows_target,
        targetRows_congr h, typesOf_congr h]
    | beforeInsert msg => simp [exShadow, h]
    | afterInsert msg => simp [exShadow, h]
  · simp [exShadow, h]

theorem transformTarget_shadow (env : Env) (tys : List (String × ColType))
    (d1 d2 : DbState) (h : d1.target = d2.target) :
    exShadow (transformTarget env tys d1) =
      exShadow (transformTarget env tys d2) := by
  unfold transformTarget
  rw [h]
  cases env.transformFault with
  | some e =>
    dsimp only [exShadow]
    rw [h]
  | none =>
    cases d2.target with
    | none =>
      dsimp only [exShadow]
      rw [h]
    | some t => dsimp only [exShadow]

theorem streamLoop_shadow (env : Env) (bs : Nat) (id hdr : String) :
    ∀ (evs : List LineEvent) (st1 st2 : RunState),
      st1.db.target = st2.db.target → st1.observed = st2.observed →
      st1.batch = st2.batch → st1.wcount = st2.wcount →
      loopShadow (streamLoop env bs id hdr evs st1) =
        loopShadow (streamLoop env bs id hdr evs st2) := by
  intro evs
  induction evs with
  | nil =>
    intro st1 st2 h1 h2 h3 h4
    dsimp only [streamLoop, loopShadow]
    rw [h1, h2, h3, h4]
  | cons ev rest ih =>
    intro st1 st2 h1 h2 h3 h4
    cases ev with
    | fail m =>
      dsimp only [streamLoop, loopShadow]
      rw [h1]
    | line l =>
      by_cases hl : l = ""
      · simp only [streamLoop, if_pos hl]
        dsimp only [loopShadow]
        rw [h1, h2, h3, h4]
      · simp only [streamLoop, if_neg hl]
        rw [h2, h3, h4]
        by_cases hlen : bs ≤ (st2.batch ++ [parseRow hdr l]).length
        · rw [if_pos hlen, if_pos hlen]
          have hwsh := write_batch_shadow env st2.wcount id
            (st2.batch ++ [parseRow hdr l]) st1.db st2.db h1
          cases hw1 : write_batch env st2.wcount id
              (st2.batch ++ [parseRow hdr l]) st1.db with
          | error p1 =>
            cases hw2 : write_batch env st2.wcount id
                (st2.batch ++ [parseRow hdr l]) st2.db with
            | error p2 =>
              rw [hw1, hw2] at hwsh
              cases p1 with
              | mk e1 dd1 =>
                cases p2 with
                | mk e2 dd2 =>
                  dsimp only [exShadow] at hwsh
                  injection hwsh with hwsh2
                  injection hwsh2 with he hdd
                  dsimp only [loopShadow]
                  rw [he, hdd]
            | ok db2 =>
              rw [hw1, hw2] at hwsh
              cases p1 with
              | mk e1 dd1 => exact absurd hwsh (by simp [exShadow])
          | ok db1 =>
            cases hw2 : write_batch env st2.wcount id
                (st2.batch ++ [parseRow hdr l]) st2.db with
            | error p2 =>
              rw [hw1, hw2] at hwsh
              cases p2 with
              | mk e2 dd2 => exact absurd hwsh (by simp [exShadow])
            | ok db2 =>
              rw [hw1, hw2] at hwsh
              dsimp only [exShadow] at hwsh
              injection hwsh with hwsh2
              exact ih ⟨db1, st2.observed ++ (st2.batch ++ [parseRow hdr l]),
                  [], st2.wcount + 1⟩
                ⟨db2, st2.observed ++ (st2.batch ++ [parseRow hdr l]),
                  [], st2.wcount + 1⟩
                hwsh2 rfl rfl rfl
        · rw [if_neg hlen, if_neg hlen]
          exact ih ⟨st1.db, st2.observed, st2.batch ++ [parseRow hdr l],
              st2.wcount⟩
            ⟨st2.db, st2.observed, st2.batch ++ [parseRow hdr l], st2.wcount⟩
            h1 rfl rfl rfl

theorem finishImport_shadow (env : Env) (id : String) (st1 st2 : RunState)
    (h1 : st1.db.target = st2.db.target) (h2 : st1.observed = st2.observed)
    (h3 : st1.batch = st2.batch) (h4 : st1.wcount = st2.wcount) :
    exShadow (finishImport env id st1) = exShadow (finishImport env id st2) := by
  unfold finishImport
  rw [h2, h3, h4]
  by_cases hb : st2.batch.isEmpty
  · rw [if_pos hb, if_pos hb]
    dsimp only
    have hts := transformTarget_shadow env (detectTypes st2.observed)
      st1.db st2.db h1
    cases ht1 : transformTarget env (detectTypes st2.observed) st1.db with
    | error p1 =>
      cases ht2x : transformTarget env (detectTypes st2.observed) st2.db with
      | error p2 =>
        rw [ht1, ht2x] at hts
        dsimp only
        cases p1 with
        | mk e1 dd1 =>
          cases p2 with
          | mk e2 dd2 =>
            dsimp only [exShadow] at hts
            injection hts with hts2
            injection hts2 with he hdd
            dsimp only [exShadow]
            rw [he, hdd]
      | ok d2x =>
        rw [ht1, ht2x] at hts
        cases p1 with
        | mk e1 dd1 => exact absurd hts (by simp [exShadow])
    | ok d1x =>
      cases ht2x : transformTarget env (detectTypes st2.observed) st2.db with
      | error p2 =>
        rw [ht1, ht2x] at hts
        cases p2 with
        | mk e2 dd2 => exact absurd hts (by simp [exShadow])
      | ok d2x =>
        rw [ht1, ht2x] at hts
        dsimp only
        dsimp only [exShadow] at hts
        injection hts with hts2
        dsimp only [exShadow]
        rw [updateComplete_target, updateComplete_target, hts2]
  · rw [if_neg hb, if_neg hb]
    have hws := write_batch_shadow env st2.wcount id st2.batch st1.db st2.db h1
    cases hw1 : write_batch env st2.wcount id st2.batch st1.db with
    | error p1 =>
      cases hw2x : write_batch env st2.wcount id st2.batch st2.db with
      | error p2 =>
        rw [hw1, hw2x] at hws
        dsimp only
        cases p1 with
        | mk e1 dd1 =>
          cases p2 with
          | mk e2 dd2 =>
            dsimp only [exShadow] at hws
            injection hws with hws2
            injection hws2 with he hdd
            dsimp only [exShadow]
            rw [he, hdd]
      | ok d2x =>
        rw [hw1, hw2x] at hws
        cases p1 with
        | mk e1 dd1 => exact absurd hws (by simp [exShadow])
    | ok d1x =>
      cases hw2x : write_batch env st2.wcount id st2.batch st2.db with
      | error p2 =>
        rw [hw1, hw2x] at hws
        cases p2 with
        | mk e2 dd2 => exact absurd hws (by simp [exShadow])
      | ok d2x =>
        rw [hw1, hw2x] at hws
        dsimp only
        dsimp only [exShadow] at hws
        injection hws with hws2
        have htsx := transformTarget_shadow env
          (detectTypes (st2.observed ++ st2.batch)) d1x d2x hws2
        cases ht1 : transformTarget env
            (detectTypes (st2.observed ++ st2.batch)) d1x with
        | error p1 =>
          cases ht2x : transformTarget env
              (detectTypes (st2.observed ++ st2.batch)) d2x with
          | error p2 =>
            rw [ht1, ht2x] at htsx
            dsimp only
            cases p1 with
            | mk e1 dd1 =>
              cases p2 with
              | mk e2 dd2 =>
                dsimp only [exShadow] at htsx
                injection htsx with hts2
                injection hts2 with he hdd
                dsimp only [exShadow]
                rw [he, hdd]
          | ok d2y =>
            rw [ht1, ht2x] at htsx
            cases p1 with
            | mk e1 dd1 => exact absurd htsx (by simp [exShadow])
        | ok d1y =>
          cases ht2x : transformTarget env
              (detectTypes (st2.observed ++ st2.batch)) d2x with
          | error p2 =>
            rw [ht1, ht2x] at htsx
            cases p2 with
            | mk e2 dd2 => exact absurd htsx (by simp [exShadow])
          | ok d2y =>
            rw [ht1, ht2x] at htsx
            dsimp only
            dsimp only [exShadow] at htsx
            injection htsx with hts2
            dsimp only [exShadow]
            rw [updateComplete_target, updateComplete_target, hts2]

theorem runBS_shadow (env : Env) (bs : Nat) (id : String) (d1 d2 : DbState)
    (h : d1.target = d2.target) :
    exShadow (runBS env bs id d1) = exShadow (runBS env bs id d2) := by
  unfold runBS
  cases hs : env.stream with
  | nil =>
    exact finishImport_shadow env id ⟨d1, [], [], 0⟩ ⟨d2, [], [], 0⟩ h rfl rfl rfl
  | cons ev rest =>
    cases ev with
    | fail m =>
      dsimp only [exShadow]
      rw [h]
    | line hdr =>
      dsimp only
      have hls := streamLoop_shadow env bs id hdr rest ⟨d1, [], [], 0⟩
        ⟨d2, [], [], 0⟩ h rfl rfl rfl
      cases hl1 : streamLoop env bs id hdr rest ⟨d1, [], [], 0⟩ with
      | error p1 =>
        cases hl2 : streamLoop env bs id hdr rest ⟨d2, [], [], 0⟩ with
        | error p2 =>
          rw [hl1, hl2] at hls
          dsimp only
          cases p1 with
          | mk e1 dd1 =>
            cases p2 with
            | mk e2 dd2 =>
              dsimp only [loopShadow] at hls
              injection hls with hls2
              injection hls2 with he hdd
              dsimp only [exShadow]
              rw [he, hdd]
        | ok stx =>
          rw [hl1, hl2] at hls
          cases p1 with
          | mk e1 dd1 => exact absurd hls (by simp [loopShadow])
      | ok stx =>
        cases hl2 : streamLoop env bs id hdr rest ⟨d2, [], [], 0⟩ with
        | error p2 =>
          rw [hl1, hl2] at hls
          cases p2 with
          | mk e2 dd2 => exact absurd hls (by simp [loopShadow])
        | ok sty =>
          rw [hl1, hl2] at hls
          dsimp only
          dsimp only [loopShadow] at hls
          injection hls with hls2
          injection hls2 with ha hb2
          injection hb2 with hbo hb3
          injection hb3 with hbb hbw
          exact finishImport_shadow env id stx sty ha hbo hbb hbw

theorem catchIntoError_target_congr (id : String)
    (r1 r2 : Except (String × DbState) DbState)
    (h : exShadow r1 = exShadow r2) :
    (catchIntoError id r1).target = (catchIntoError id r2).target := by
  cases r1 with
  | ok dbx =>
    cases r2 with
    | ok dby =>
      dsimp only [exShadow] at h
      injection h with h2
      try exact h2
    | error p => cases p with | mk e d => exact absurd h (by simp [exShadow])
  | error p1 =>
    cases r2 with
    | ok dby =>
      cases p1 with
      | mk e d => exact absurd h (by simp [exShadow])
    | error p2 =>
      cases p1 with
      | mk e1 dd1 =>
        cases p2 with
        | mk e2 dd2 =>
          dsimp only [exShadow] at h
          injection h with h2
          injection h2 with he hdd
          try rw [show (catchIntoError id (Except.error (e1, dd1))).target =
              dd1.target from rfl,
            show (catchIntoError id (Except.error (e2, dd2))).target =
              dd2.target from rfl, hdd]

/-! ## Claim C5: a fresh start replaces the record and drops the table -/

/-- Claim C5: at the start of every import a fresh Import Record is
persisted, replacing any prior record with the same dataset id (`error`
null, `import_complete` null, `row_progress = 0`), and the pre-existing
target table is dropped before any write of the new run — consequently the
final target table of the whole pipeline is the same whatever durable state
(prior records, prior target rows) the import started from: no row of a
previous import survives a re-import. -/
theorem claim_C5 (env : Env) (meta : SocrataMeta) (url : String)
    (rc : Option Int) (ts : String) (db : DbState) :
    lookupImport meta.id (import_socrata_start meta url rc ts db) =
        some (freshRecord meta url rc ts) ∧
    (freshRecord meta url rc ts).error = none ∧
    (freshRecord meta url rc ts).import_complete = none ∧
    (freshRecord meta url rc ts).row_progress = 0 ∧
    (∀ r ∈ (import_socrata_start meta url rc ts db).imports,
      r.id = meta.id → r = freshRecord meta url rc ts) ∧
    (import_socrata_start meta url rc ts db).target = none ∧
    (∀ db2 : DbState, (importPipeline env meta url rc ts db).target =
      (importPipeline env meta url rc ts db2).target) := by
  refine ⟨lookupImport_start meta url rc ts db, rfl, rfl, rfl, ?_, rfl, ?_⟩
  · intro r hr hid
    unfold import_socrata_start at hr
    rcases List.mem_cons.mp hr with h | h
    · exact h
    · have := (List.mem_filter.mp h).2
      rw [bne_iff_ne] at this
      exact absurd hid this
  · intro db2
    exact catchIntoError_target_congr meta.id _ _
      (runBS_shadow env 100 meta.id (import_socrata_start meta url rc ts db)
        (import_socrata_start meta url rc ts db2) rfl)

/-- Witness for C5: starting over a state that already holds a stale record
and a populated target table for the same dataset id yields the fresh record
and no table. -/
theorem claim_C5_witness :
    lookupImport "24uj-dj8v" (import_socrata_start ⟨"24uj-dj8v", "Permits", "\x7b\x7d"⟩
        "u" (some 2) "S"
        ⟨[{ id := "24uj-dj8v", name := "old", url := "o", metadata := "\x7b\x7d",
            row_count := none, row_progress := 7, import_started := "X",
            import_complete := some "Y", error := some "Z" }],
          some ⟨[[("a", "1")]], none⟩⟩) =
      some (freshRecord ⟨"24uj-dj8v", "Permits", "\x7b\x7d"⟩ "u" (some 2) "S") ∧
    (import_socrata_start ⟨"24uj-dj8v", "Permits", "\x7b\x7d"⟩ "u" (some 2) "S"
        ⟨[{ id := "24uj-dj8v", name := "old", url := "o", metadata := "\x7b\x7d",
            row_count := none, row_progress := 7, import_started := "X",
            import_complete := some "Y", error := some "Z" }],
          some ⟨[[("a", "1")]], none⟩⟩).target = none :=
  ⟨(claim_C5 ⟨[], fun _ => false, fun _ => .ok, none, "T"⟩
      ⟨"24uj-dj8v", "Permits", "\x7b\x7d"⟩ "u" (some 2) "S"
      ⟨[{ id := "24uj-dj8v", name := "old", url := "o", metadata := "\x7b\x7d",
          row_count := none, row_progress := 7, import_started := "X",
          import_complete := some "Y", error := some "Z" }],
        some ⟨[[("a", "1")]], none⟩⟩).1,
    (claim_C5 ⟨[], fun _ => false, fun _ => .ok, none, "T"⟩
      ⟨"24uj-dj8v", "Permits", "\x7b\x7d"⟩ "u" (some 2) "S"
      ⟨[{ id := "24uj-dj8v", name := "old", url := "o", metadata := "\x7b\x7d",
          row_count := none, row_progress := 7, import_started := "X",
          import_complete := some "Y", error := some "Z" }],
        some ⟨[[("a", "1")]], none⟩⟩).2.2.2.2.2.1⟩

/-! ## Claim C8: an empty line ends the record sequence like end of input -/

theorem readerRun_clean (hdr : String) :
    ∀ (pre : List String) (evs : List LineEvent),
      (∀ l ∈ pre, l ≠ "") →
      readerRun hdr (pre.map .line ++ evs) =
        (readerRun hdr evs).map (fun rs => pre.map (parseRow hdr) ++ rs) := by
  intro pre
  induction pre with
  | nil =>
    intro evs _
    simp only [List.map_nil, List.nil_append]
    cases readerRun hdr evs <;> rfl
  | cons l t ih =>
    intro evs hne
    have hl : l ≠ "" := hne l (by simp)
    simp only [List.map_cons, List.cons_append, readerRun, if_neg hl]
    simp only [List.append_eq]
    rw [ih evs (fun x hx => hne x (by simp [hx]))]
    cases readerRun hdr evs <;> rfl

/-- Claim C8: after the header, a pulled empty line terminates the record
sequence without an error, yielding exactly the records of the preceding
non-empty lines — the same successful outcome as genuine end of input. -/
theorem claim_C8 (hdr : String) (pre : List String) (rest : List LineEvent)
    (hne : ∀ l ∈ pre, l ≠ "") :
    readerRun hdr (pre.map .line ++ .line "" :: rest) =
        .ok (pre.map (parseRow hdr)) ∧
      readerRun hdr (pre.map .line) = .ok (pre.map (parseRow hdr)) := by
  have h1 := readerRun_clean hdr pre (.line "" :: rest) hne
  have h2 := readerRun_clean hdr pre [] hne
  rw [List.append_nil] at h2
  constructor
  · rw [h1]
    have hstop : readerRun hdr (.line "" :: rest) = .ok [] := by
      simp [readerRun]
    rw [hstop]
    simp [Except.map]
  · rw [h2]
    have hend : readerRun hdr ([] : List LineEvent) = .ok [] := rfl
    rw [hend]
    simp [Except.map]

/-- Witness for C8: `1,Dog` then an empty line then `2,Chicken`: the reader
stops cleanly after the first record; the material after the blank line is
never parsed. -/
theorem claim_C8_witness :
    (∀ l ∈ ["1,Dog"], l ≠ "") ∧
    readerRun "id,species" [.line "1,Dog", .line "", .line "2,Chicken"] =
      .ok [[("id", "1"), ("species", "Dog")]] :=
  ⟨by decide, by
    have h := (claim_C8 "id,species" ["1,Dog"] [.line "2,Chicken"] (by decide)).1
    rw [show ([.line "1,Dog", .line "", .line "2,Chicken"] : List LineEvent) =
      (["1,Dog"].map LineEvent.line ++ .line "" :: [.line "2,Chicken"]) from rfl, h]
    rfl⟩

/-! ## Claim C9: `get_row_count` raises despite its own comment -/

/-- Claim C9 is contradicted by the code: the comment above `get_row_count`
says `we ignore errors and keep row_count at None`, but there is no
`try/except` in the function body, so a transport-level `httpx.HTTPError`
from `client.get`, or a 200 response whose body is not valid JSON,
propagates to the caller instead of yielding `None`. The good path does
behave as documented (a 200 one-element list with a `count...` key returns
the integer; non-200 responses return `None` without touching the body). -/
theorem claim_C9_bug :
    get_row_count (.transportError "connection refused") =
        .error "connection refused" ∧
      get_row_count (.response 200 none) = .error "JSONDecodeError" ∧
      get_row_count (.response 200 (some (.arr [.obj [("count", .str "2")]]))) =
        .ok (some 2) ∧
      get_row_count (.response 404 none) = .ok none :=
  ⟨rfl, rfl, rfl, rfl⟩

end DatasetteSocrata
